import Mathlib

/-!
# msg_sock_hdlr: a shallow embedding of the socket message handler

The definitions below follow `src/c++/iway_msg_hdlr/msg_sock_hdlr.c` function by
function.  Socket calls are replaced by their outcomes, supplied as arguments
(a script of what each `read`, `accept`, `send` ... returned and the `errno` it
left), and every call made is recorded in a trace of `io_event`s.  Logging
(`sprintf` into `full_log_msg` followed by `IWAY_LOG`) is no socket I/O and is
left out.  C `int` values are integers, and the arithmetic the read loop does on
`message_size` is done in 32 bits: each sum, difference and product is reduced
by `int32` to the value a two's complement `int` holds.
-/

namespace MsgSockHdlr

/-- Modelled from the spec: the `MSH_*` result codes of the header
`msg_sock_hdlr.h`, which is not in the source tree.  The source only uses them
by name; they are taken to be pairwise distinct. -/
inductive msh_result
  | MSH_INVALID_SOCKSTRUCT
  | MSH_ERROR_GETADDRINFO
  | MSH_ERROR_SETSOCKET
  | MSH_ERROR_SETSOCKOPT
  | MSH_ERROR_SOCKBIND
  | MSH_ERROR_SOCKLISTEN
  | MSH_ERROR_SOCKACCEPT
  | MSH_ERROR_NOCONNECT
  | MSH_LISTENER_CREATED
  | MSH_CLIENT_CONNECTED
  | MSH_CONNECT_TIMEOUT
  | MSH_MESSAGE_RECVD
  | MSH_MESSAGE_NOT_RECVD
  | MSH_MESSAGE_RECVD_OVERFLOW
  | MSH_MESSAGE_RECV_TIMEOUT
  | MSH_MESSAGE_SENT
  | MSH_MESSAGE_NOT_SENT
  | MSH_CLIENT_DISCONNECTED
  | MSH_ERROR_ACK_SEND_FAIL
  | MSH_ERROR_ACK_RECV_FAIL
  deriving DecidableEq, Repr

open msh_result

/-- The values of `errno` the source tests for, and any other value. -/
inductive errno_t
  | EWOULDBLOCK
  | EAGAIN
  | EPIPE
  | other (code : Nat)
  deriving DecidableEq, Repr

open errno_t

/-- Modelled from the spec: the session record `sock_struct_t` of the header
`msg_sock_hdlr.h`, which is not in the source tree; the fields are the ones the
source reads and writes.  A descriptor equal to 0 is an absent descriptor. -/
structure sock_struct_t where
  host : List Nat
  port : Int
  lsd : Int
  csd : Int
  lto : Int
  cto : Int
  valid : Int
  result : msh_result
  deriving DecidableEq, Repr

/-- Socket options set by the source. -/
inductive sock_opt
  | SO_REUSEADDR
  | SO_RCVTIMEO
  | SO_SNDTIMEO
  deriving DecidableEq, Repr

/-- One system call made by the handler, with the arguments that matter. -/
inductive io_event
  | io_sigaction
  | io_getaddrinfo (host : List Nat) (port : Int)
  | io_socket (family : Int)
  | io_setsockopt (sd : Int) (opt : sock_opt) (value : Int)
  | io_bind (sd : Int)
  | io_connect (sd : Int)
  | io_listen (sd : Int) (backlog : Int)
  | io_accept (sd : Int)
  | io_read (sd : Int) (count : Nat)
  | io_send (sd : Int) (data : List Nat)
  | io_close (sd : Int)
  deriving DecidableEq, Repr

open io_event

/-- The constant `BACKLOG`. -/
def BACKLOG : Int := 2

/-- The constant `ACK_MSG_BUF_LEN`. -/
def ACK_MSG_BUF_LEN : Nat := 32

/-- The size of the local read buffer, `sizeof( rd_buf )`. -/
def rd_buf_size : Nat := 1024

/-- What one `read` call did: it stored `chunk` at the start of the buffer and
returned its length, or returned 0, or returned -1 and set `errno`. -/
inductive read_outcome
  | data (chunk : List Nat)
  | closed
  | failed (e : errno_t)
  deriving DecidableEq, Repr

/-- The value `read` returned. -/
def read_return : read_outcome → Int
  | .data chunk => (chunk.length : Int)
  | .closed => 0
  | .failed _ => -1

/-- The bytes `read` stored in the buffer, `rd_buf[0 .. bytes_read)`. -/
def read_data : read_outcome → List Nat
  | .data chunk => chunk
  | _ => []

/-- The value of `errno` after a `read` call: only a failing call sets it. -/
def read_errno : read_outcome → errno_t → errno_t
  | .failed e, _ => e
  | _, old => old

/-- What one `send` call did: it returned a byte count, or returned -1 and set
`errno`. -/
inductive send_outcome
  | sent (count : Nat)
  | failed (e : errno_t)
  deriving DecidableEq, Repr

/-- The value `send` returned. -/
def send_return : send_outcome → Int
  | .sent count => (count : Int)
  | .failed _ => -1

/-- The value of `errno` after a `send` call. -/
def send_errno : send_outcome → errno_t → errno_t
  | .failed e, _ => e
  | _, old => old

/-- The C library `memcpy( dst + off, src, n )` with `n` the length of `src`. -/
def memcpy (dst : List Nat) (off : Nat) (src : List Nat) : List Nat :=
  dst.take off ++ src ++ dst.drop (off + src.length)

/-- The C library `strlen`: the number of bytes before the first null byte. -/
def strlen (mem : List Nat) : Nat :=
  (mem.takeWhile (fun b => b != 0)).length

/-- The text `sprintf` writes for `%d`. -/
def sprintf_d (n : Int) : List Nat :=
  if n < 0 then 45 :: (Nat.toDigits 10 n.natAbs).map Char.toNat
  else (Nat.toDigits 10 n.natAbs).map Char.toNat

/-- The number a string of decimal digit bytes denotes, the most significant
digit first: what "decimal rendering" means for the text of `sprintf_d`. -/
def decimal_value (digits : List Nat) : Nat :=
  digits.foldl (fun acc d => 10 * acc + (d - 48)) 0

/-- The bytes of the format text `:ACK:ByteCount:`. -/
def ack_text : List Nat := [58, 65, 67, 75, 58, 66, 121, 116, 101, 67, 111, 117, 110, 116, 58]

/-- The buffer `ack_response` after `sprintf( ack_response, ":ACK:ByteCount:%d",
message_size )`: zero-initialised, then the text and its null terminator. -/
def ack_response (message_size : Int) : List Nat :=
  memcpy (List.replicate ACK_MSG_BUF_LEN 0) 0 (ack_text ++ sprintf_d message_size ++ [0])

/-- Modelled from the spec: `sock_struct_close_client` of the header
`msg_sock_hdlr.h`, which is not in the source tree.  The spec says the
Disruption Detector "closes the connected descriptor" and that afterwards "the
connected descriptor is now absent". -/
def sock_struct_close_client (s : sock_struct_t) : sock_struct_t × List io_event :=
  ({ s with csd := 0 }, [io_close s.csd])

/-- The function `check_for_broken_socket`: the flag it returns, the session it
leaves and the calls it made. -/
def check_for_broken_socket (s : sock_struct_t) (errno : errno_t) :
    Bool × sock_struct_t × List io_event :=
  if errno = EPIPE then
    let closed := sock_struct_close_client s
    (true, { closed.1 with result := MSH_CLIENT_DISCONNECTED }, closed.2)
  else
    (false, s, [])

/-- Which statement ended the read loop of `msg_sock_hdlr_recv`. -/
inductive loop_exit
  | read_not_positive
  | overflow
  | short_read
  | trailing_null
  deriving DecidableEq, Repr

/-- The local variables of `msg_sock_hdlr_recv` when its read loop is left. -/
structure recv_loop_result where
  message_buf : List Nat
  message_size : Int
  return_code : msh_result
  bytes_read : Int
  errno : errno_t
  trace : List io_event
  unread : List read_outcome
  exit_at : loop_exit
  deriving DecidableEq, Repr

/-- The value a C `int` holds after an arithmetic operation whose mathematical
result is `x`: the result reduced to 32 bits in two's complement. -/
def int32 (x : Int) : Int :=
  (x + 2147483648) % 4294967296 - 2147483648

/-- The read loop of `msg_sock_hdlr_recv`, lines 440 to 516.  The first argument
list is the outcome of each `read` still to come; the loop has no result when it
asks for a read beyond the script.  The sum of the capacity check is formed left
to right in `int`, as are the negation, the sum `message_size += bytes_read` and
the index `message_size - 1`.  The buffer is a list: a copy that ends behind its
end makes it longer, and a read behind its end yields 0.  A `message_size` that
has wrapped below zero would address memory in front of the buffer, which the
list does not hold; offset and index are then taken as 0. -/
def recv_loop (local_client_sd : Int) (message_buf_len : Int) :
    List read_outcome → List Nat → Int → msh_result → errno_t → List io_event →
    Option recv_loop_result
  | [], _, _, _, _, _ => none
  | r :: rest, message_buf, message_size, return_code, errno, trace =>
    let bytes_read := read_return r
    let rd_buf := read_data r
    let errno1 := read_errno r errno
    let trace1 := trace ++ [io_read local_client_sd rd_buf_size]
    if bytes_read > 0 then
      let trailing_null_byte : Int := 1
      let add_missing_trailing_null_byte : Int :=
        if rd_buf.getD (bytes_read - 1).toNat 0 = 0 then 0 else trailing_null_byte
      if int32 (int32 (message_size + bytes_read) + add_missing_trailing_null_byte)
          > message_buf_len then
        some { message_buf := message_buf, message_size := int32 (-1 * message_size),
               return_code := MSH_MESSAGE_RECVD_OVERFLOW, bytes_read := bytes_read,
               errno := errno1, trace := trace1, unread := rest, exit_at := .overflow }
      else
        let message_buf1 := memcpy message_buf message_size.toNat rd_buf
        let message_size1 := int32 (message_size + bytes_read)
        if bytes_read < (rd_buf_size : Int) then
          some { message_buf := message_buf1, message_size := message_size1,
                 return_code := MSH_MESSAGE_RECVD, bytes_read := bytes_read,
                 errno := errno1, trace := trace1, unread := rest, exit_at := .short_read }
        else if message_buf1.getD (int32 (message_size1 - 1)).toNat 0 = 0 then
          some { message_buf := message_buf1, message_size := message_size1,
                 return_code := MSH_MESSAGE_RECVD, bytes_read := bytes_read,
                 errno := errno1, trace := trace1, unread := rest, exit_at := .trailing_null }
        else
          recv_loop local_client_sd message_buf_len rest message_buf1 message_size1
            MSH_MESSAGE_RECVD errno1 trace1
    else
      some { message_buf := message_buf, message_size := message_size,
             return_code := return_code, bytes_read := bytes_read,
             errno := errno1, trace := trace1, unread := rest, exit_at := .read_not_positive }

/-- The validation block of `msg_sock_hdlr_recv`, lines 387 to 390: the session
with `valid` cleared when a check fails. -/
def recv_validate (s : sock_struct_t) : sock_struct_t :=
  let s1 := if s.lsd = 0 then { s with valid := 0 } else s
  let s2 := if s1.csd = 0 then { s1 with valid := 0 } else s1
  let s3 := if s2.lto < 0 then { s2 with valid := 0 } else s2
  if s3.cto < 0 then { s3 with valid := 0 } else s3

/-- What `msg_sock_hdlr_recv` leaves behind: the session, the destination
buffer, the local `message_size`, the calls made, the reads of the script not
consumed, and the statement that ended the read loop (none when the session was
rejected before the loop). -/
structure recv_result where
  sock_struct : sock_struct_t
  message_buf : List Nat
  message_size : Int
  trace : List io_event
  unread : List read_outcome
  exit_at : Option loop_exit
  deriving DecidableEq, Repr

/-- The part of `msg_sock_hdlr_recv` behind the read loop, lines 523 to 595: the
disruption check after a zero-length read, the time-out test after a failed
read, the ACK, and the store of `return_code` into the session.  `s4` is the
validated session, `l` holds the local variables as the loop left them. -/
def recv_finish (s4 : sock_struct_t) (sendAck : Bool) (ack_send : send_outcome)
    (l : recv_loop_result) : recv_result :=
  let local_client_sd := s4.csd
  let set_cli_timeout : Bool := decide (s4.cto > 0)
  -- if( bytes_read == 0 )
  let chk := if l.bytes_read = 0 then check_for_broken_socket s4 l.errno
             else (false, s4, [])
  let return_code1 := if chk.1 then chk.2.1.result else l.return_code
  let s5 := chk.2.1
  let trace1 := l.trace ++ chk.2.2
  -- if( bytes_read < 0 )
  let return_code2 :=
    if l.bytes_read < 0 then
      if set_cli_timeout && (l.errno = EWOULDBLOCK || l.errno = EAGAIN) then
        MSH_MESSAGE_RECV_TIMEOUT
      else return_code1
    else return_code1
  -- if( bytes_read > 0 && sendAck )
  if l.bytes_read > 0 && sendAck then
    let buf := ack_response l.message_size
    let trace2 := trace1 ++ [io_send local_client_sd (buf.take (strlen buf))]
    if send_return ack_send = -1 then
      let chk2 := check_for_broken_socket s5 (send_errno ack_send l.errno)
      { sock_struct := { chk2.2.1 with result := MSH_ERROR_ACK_SEND_FAIL },
        message_buf := l.message_buf, message_size := l.message_size,
        trace := trace2 ++ chk2.2.2, unread := l.unread, exit_at := some l.exit_at }
    else
      { sock_struct := { s5 with result := return_code2 },
        message_buf := l.message_buf, message_size := l.message_size,
        trace := trace2, unread := l.unread, exit_at := some l.exit_at }
  else
    { sock_struct := { s5 with result := return_code2 },
      message_buf := l.message_buf, message_size := l.message_size,
      trace := trace1, unread := l.unread, exit_at := some l.exit_at }

/-- The function `msg_sock_hdlr_recv`.  `errno0` is the value of `errno` at
entry, `reads` the outcome of each `read`, `ack_send` the outcome of the `send`
of the ACK should one be made.  There is no result when the read loop asks for
a read beyond the script. -/
def msg_sock_hdlr_recv (s : sock_struct_t) (message_buf : List Nat) (message_buf_len : Int)
    (sendAck : Bool) (errno0 : errno_t) (reads : List read_outcome) (ack_send : send_outcome) :
    Option recv_result :=
  let s4 := recv_validate s
  if s4.valid = 0 then
    some { sock_struct := { s4 with result := MSH_INVALID_SOCKSTRUCT },
           message_buf := message_buf, message_size := 0, trace := [],
           unread := reads, exit_at := none }
  else
    let local_client_sd := s4.csd
    match recv_loop local_client_sd message_buf_len reads message_buf 0
        MSH_MESSAGE_NOT_RECVD errno0 [] with
    | none => none
    | some l => some (recv_finish s4 sendAck ack_send l)

/-- One address candidate returned by `getaddrinfo` for the listener, with what
`socket`, `setsockopt( SO_REUSEADDR )` and `bind` do on it. -/
structure bind_candidate where
  ai_family : Int
  socket_ret : Int
  reuse_ok : Bool
  bind_ok : Bool
  deriving DecidableEq, Repr

/-- How the candidate loop of `msg_sock_hdlr_open_for_recv` ends: it breaks with
a bound descriptor, it runs off the list, or it returns on a `setsockopt`
failure. -/
inductive bind_loop_exit
  | bound (sd : Int)
  | exhausted
  | setsockopt_failed
  deriving DecidableEq, Repr

/-- The candidate loop of `msg_sock_hdlr_open_for_recv`, lines 151 to 177. -/
def bind_loop : List bind_candidate → List io_event → bind_loop_exit × List io_event
  | [], trace => (.exhausted, trace)
  | c :: rest, trace =>
    let trace1 := trace ++ [io_socket c.ai_family]
    if c.socket_ret = -1 then bind_loop rest trace1
    else
      let trace2 := trace1 ++ [io_setsockopt c.socket_ret .SO_REUSEADDR 1]
      if !c.reuse_ok then (.setsockopt_failed, trace2)
      else
        let trace3 := trace2 ++ [io_bind c.socket_ret]
        if !c.bind_ok then bind_loop rest (trace3 ++ [io_close c.socket_ret])
        else (.bound c.socket_ret, trace3)

/-- What an open operation leaves behind: the session, the process-wide flag
`SIG_IGN_SET` and the calls made. -/
structure open_result where
  sock_struct : sock_struct_t
  SIG_IGN_SET : Bool
  trace : List io_event
  deriving DecidableEq, Repr

/-- The bytes of `LISTENER_INTERFACES_IPV6`. -/
def LISTENER_INTERFACES_IPV6 : List Nat := [58, 58]

/-- The validation block of `msg_sock_hdlr_open_for_recv`, lines 84 to 93: the
session with `valid` recomputed. -/
def open_for_recv_validate (s : sock_struct_t) : sock_struct_t :=
  let s0 : sock_struct_t := { s with valid := 1 }
  let s1 := if s0.lsd ≠ 0 then { s0 with valid := 0 } else s0
  let s2 := if s1.csd ≠ 0 then { s1 with valid := 0 } else s1
  let s3 := if s2.lto < 0 then { s2 with valid := 0 } else s2
  let s4 := if s3.cto < 0 then { s3 with valid := 0 } else s3
  let s5 := if s4.lto > 86400 then { s4 with valid := 0 } else s4
  if s5.cto > 86400 then { s5 with valid := 0 } else s5

/-- The function `msg_sock_hdlr_open_for_recv`.  `sig` is `SIG_IGN_SET` at
entry, `gai` the candidates `getaddrinfo` returned (none when it failed),
`rcv_ok` and `snd_ok` whether the two timeout `setsockopt` calls succeed. -/
def msg_sock_hdlr_open_for_recv (s : sock_struct_t) (sig : Bool)
    (gai : Option (List bind_candidate)) (rcv_ok snd_ok : Bool) : open_result :=
  let s6 := open_for_recv_validate s
  if s6.valid = 0 then
    { sock_struct := { s6 with result := MSH_INVALID_SOCKSTRUCT }, SIG_IGN_SET := sig,
      trace := [] }
  else
    let trace0 := if !sig then [io_sigaction] else []
    let set_listen_timeout : Bool := decide (s6.lto > 0)
    let trace1 := trace0 ++ [io_getaddrinfo LISTENER_INTERFACES_IPV6 s6.port]
    match gai with
    | none =>
      { sock_struct := { s6 with result := MSH_ERROR_GETADDRINFO }, SIG_IGN_SET := true,
        trace := trace1 }
    | some servinfo =>
      match bind_loop servinfo trace1 with
      | (.setsockopt_failed, trace2) =>
        { sock_struct := { s6 with result := MSH_ERROR_SETSOCKOPT }, SIG_IGN_SET := true,
          trace := trace2 }
      | (.exhausted, trace2) =>
        { sock_struct := { s6 with result := MSH_ERROR_SOCKBIND }, SIG_IGN_SET := true,
          trace := trace2 }
      | (.bound local_listener_sd, trace2) =>
        if set_listen_timeout then
          let trace3 := trace2 ++ [io_setsockopt local_listener_sd .SO_RCVTIMEO s6.lto]
          if !rcv_ok then
            { sock_struct := { s6 with result := MSH_ERROR_SETSOCKOPT }, SIG_IGN_SET := true,
              trace := trace3 }
          else
            let trace4 := trace3 ++ [io_setsockopt local_listener_sd .SO_SNDTIMEO s6.lto]
            if !snd_ok then
              { sock_struct := { s6 with result := MSH_ERROR_SETSOCKOPT }, SIG_IGN_SET := true,
                trace := trace4 }
            else
              { sock_struct := { s6 with result := MSH_LISTENER_CREATED,
                                         lsd := local_listener_sd },
                SIG_IGN_SET := true, trace := trace4 }
        else
          { sock_struct := { s6 with result := MSH_LISTENER_CREATED,
                                     lsd := local_listener_sd },
            SIG_IGN_SET := true, trace := trace2 }

/-- What one `accept` call did: it returned a descriptor, or returned -1 and set
`errno`. -/
inductive accept_outcome
  | connected (sd : Int)
  | failed (e : errno_t)
  deriving DecidableEq, Repr

/-- The value `accept` returned. -/
def accept_return : accept_outcome → Int
  | .connected sd => sd
  | .failed _ => -1

/-- The value of `errno` after an `accept` call. -/
def accept_errno : accept_outcome → errno_t → errno_t
  | .failed e, _ => e
  | _, old => old

/-- One turn of the accept loop as the environment scripts it: what `accept`
did, and the value `*shutdownFlag` holds when that call has returned. -/
structure accept_step where
  outcome : accept_outcome
  shutdownFlag : Int
  deriving DecidableEq, Repr

/-- What `msg_sock_hdlr_listen` leaves behind: the session, the calls made and
the accept turns of the script not consumed. -/
structure listen_result where
  sock_struct : sock_struct_t
  trace : List io_event
  unused : List accept_step
  deriving DecidableEq, Repr

/-- The accept loop of `msg_sock_hdlr_listen`, lines 287 to 369.  The loop has
no result when it asks for an accept beyond the script. -/
def listen_loop (s : sock_struct_t) (set_listen_timeout set_cli_timeout : Bool)
    (snd_ok rcv_ok : Bool) :
    List accept_step → errno_t → List io_event → Option listen_result
  | [], _, _ => none
  | a :: rest, errno, trace =>
    let local_client_sd := accept_return a.outcome
    let errno1 := accept_errno a.outcome errno
    let trace1 := trace ++ [io_accept s.lsd]
    if local_client_sd = -1 then
      if errno1 = EWOULDBLOCK || errno1 = EAGAIN then
        if set_listen_timeout then
          if a.shutdownFlag ≠ 0 then
            some { sock_struct := { s with result := MSH_CONNECT_TIMEOUT }, trace := trace1,
                   unused := rest }
          else
            listen_loop s set_listen_timeout set_cli_timeout snd_ok rcv_ok rest errno1 trace1
        else
          listen_loop s set_listen_timeout set_cli_timeout snd_ok rcv_ok rest errno1 trace1
      else
        listen_loop s set_listen_timeout set_cli_timeout snd_ok rcv_ok rest errno1 trace1
    else if set_cli_timeout then
      let trace2 := trace1 ++ [io_setsockopt local_client_sd .SO_SNDTIMEO s.cto]
      if !snd_ok then
        some { sock_struct := { s with result := MSH_ERROR_SETSOCKOPT }, trace := trace2,
               unused := rest }
      else
        let trace3 := trace2 ++ [io_setsockopt local_client_sd .SO_RCVTIMEO s.cto]
        if !rcv_ok then
          some { sock_struct := { s with result := MSH_ERROR_SETSOCKOPT }, trace := trace3,
                 unused := rest }
        else
          some { sock_struct := { s with result := MSH_CLIENT_CONNECTED,
                                         csd := local_client_sd },
                 trace := trace3, unused := rest }
    else
      some { sock_struct := { s with result := MSH_CLIENT_CONNECTED, csd := local_client_sd },
             trace := trace1, unused := rest }

/-- The validation block of `msg_sock_hdlr_listen`, lines 228 to 230: the
session with `valid` cleared when a check fails. -/
def listen_validate (s : sock_struct_t) : sock_struct_t :=
  let s1 := if s.lsd = 0 then { s with valid := 0 } else s
  let s2 := if s1.lto < 0 then { s1 with valid := 0 } else s1
  if s2.cto < 0 then { s2 with valid := 0 } else s2

/-- The function `msg_sock_hdlr_listen`.  `listen_ok` tells whether `listen`
succeeds, `accepts` scripts the accept loop, `snd_ok` and `rcv_ok` tell whether
the two timeout `setsockopt` calls on the accepted descriptor succeed. -/
def msg_sock_hdlr_listen (s : sock_struct_t) (errno0 : errno_t) (listen_ok : Bool)
    (accepts : List accept_step) (snd_ok rcv_ok : Bool) : Option listen_result :=
  let s3 := listen_validate s
  if s3.valid = 0 then
    some { sock_struct := { s3 with result := MSH_INVALID_SOCKSTRUCT }, trace := [],
           unused := accepts }
  else
    let set_listen_timeout : Bool := decide (s3.lto > 0)
    let set_cli_timeout : Bool := decide (s3.cto > 0)
    let local_listener_sd := s3.lsd
    let trace1 := [io_listen local_listener_sd BACKLOG]
    if !listen_ok then
      some { sock_struct := { s3 with result := MSH_ERROR_SOCKLISTEN }, trace := trace1,
             unused := accepts }
    else
      listen_loop s3 set_listen_timeout set_cli_timeout snd_ok rcv_ok accepts errno0 trace1

/-- One address candidate returned by `getaddrinfo` for the sender, with what
`socket` and `connect` do on it. -/
structure connect_candidate where
  ai_family : Int
  socket_ret : Int
  connect_ok : Bool
  deriving DecidableEq, Repr

/-- The candidate loop of `msg_sock_hdlr_open_for_send`, lines 648 to 660: the
connected descriptor, or none when the list is exhausted. -/
def connect_loop : List connect_candidate → List io_event → Option Int × List io_event
  | [], trace => (none, trace)
  | c :: rest, trace =>
    let trace1 := trace ++ [io_socket c.ai_family]
    if c.socket_ret = -1 then connect_loop rest trace1
    else
      let trace2 := trace1 ++ [io_connect c.socket_ret]
      if !c.connect_ok then connect_loop rest (trace2 ++ [io_close c.socket_ret])
      else (some c.socket_ret, trace2)

/-- The function `msg_sock_hdlr_open_for_send`. -/
def msg_sock_hdlr_open_for_send (s : sock_struct_t) (sig : Bool)
    (gai : Option (List connect_candidate)) (snd_ok rcv_ok : Bool) : open_result :=
  if s.valid = 0 then
    { sock_struct := { s with result := MSH_INVALID_SOCKSTRUCT }, SIG_IGN_SET := sig,
      trace := [] }
  else
    let trace0 := if !sig then [io_sigaction] else []
    let set_cli_timeout : Bool := decide (s.cto > 0)
    let trace1 := trace0 ++ [io_getaddrinfo s.host s.port]
    match gai with
    | none =>
      { sock_struct := { s with result := MSH_ERROR_GETADDRINFO }, SIG_IGN_SET := true,
        trace := trace1 }
    | some servinfo =>
      match connect_loop servinfo trace1 with
      | (none, trace2) =>
        { sock_struct := { s with result := MSH_ERROR_NOCONNECT }, SIG_IGN_SET := true,
          trace := trace2 }
      | (some local_client_sd, trace2) =>
        if set_cli_timeout then
          let trace3 := trace2 ++ [io_setsockopt local_client_sd .SO_SNDTIMEO s.cto]
          if !snd_ok then
            { sock_struct := { s with result := MSH_ERROR_SETSOCKOPT }, SIG_IGN_SET := true,
              trace := trace3 }
          else
            let trace4 := trace3 ++ [io_setsockopt local_client_sd .SO_RCVTIMEO s.cto]
            if !rcv_ok then
              { sock_struct := { s with result := MSH_ERROR_SETSOCKOPT }, SIG_IGN_SET := true,
                trace := trace4 }
            else
              { sock_struct := { s with result := MSH_CLIENT_CONNECTED, csd := local_client_sd },
                SIG_IGN_SET := true, trace := trace4 }
        else
          { sock_struct := { s with result := MSH_CLIENT_CONNECTED, csd := local_client_sd },
            SIG_IGN_SET := true, trace := trace2 }

/-- What `msg_sock_hdlr_send` leaves behind: the session, the calls made and the
final `errno`. -/
structure send_result where
  sock_struct : sock_struct_t
  trace : List io_event
  errno : errno_t
  deriving DecidableEq, Repr

/-- The validation block of `msg_sock_hdlr_send`, line 715: the session with
`valid` cleared when the connected descriptor is absent. -/
def send_validate (s : sock_struct_t) : sock_struct_t :=
  if s.csd = 0 then { s with valid := 0 } else s

/-- The function `msg_sock_hdlr_send`.  `message_buf` is the memory the pointer
designates, `msg_send` the outcome of the `send` call and `ack_read` the outcome
of the `read` of the ACK should one be made. -/
def msg_sock_hdlr_send (s : sock_struct_t) (message_buf : List Nat) (awaitAck : Bool)
    (errno0 : errno_t) (msg_send : send_outcome) (ack_read : read_outcome) : send_result :=
  let s1 := send_validate s
  if s1.valid = 0 then
    { sock_struct := { s1 with result := MSH_INVALID_SOCKSTRUCT }, trace := [], errno := errno0 }
  else
    let local_client_sd := s1.csd
    let msgSendResult := send_return msg_send
    let errno1 := send_errno msg_send errno0
    let trace1 := [io_send local_client_sd (message_buf.take (strlen message_buf + 1))]
    if msgSendResult = -1 then
      let s2 := { s1 with result := MSH_MESSAGE_NOT_SENT }
      let chk := check_for_broken_socket s2 errno1
      { sock_struct := chk.2.1, trace := trace1 ++ chk.2.2, errno := errno1 }
    else
      let s2 := { s1 with result := MSH_MESSAGE_SENT }
      if awaitAck then
        let bytes_read := read_return ack_read
        let errno2 := read_errno ack_read errno1
        let trace2 := trace1 ++ [io_read local_client_sd ACK_MSG_BUF_LEN]
        if bytes_read = -1 then
          let s3 := { s2 with result := MSH_ERROR_ACK_RECV_FAIL }
          let chk := check_for_broken_socket s3 errno2
          { sock_struct := chk.2.1, trace := trace2 ++ chk.2.2, errno := errno2 }
        else
          { sock_struct := s2, trace := trace2, errno := errno2 }
      else
        { sock_struct := s2, trace := trace1, errno := errno1 }

/-- Successive calls of `msg_sock_hdlr_send` on one session: each call works on
the session the previous call left.  A call is given by the message memory, the
`awaitAck` flag, the `errno` at entry and the outcomes of its `send` and
`read`. -/
def send_calls (s : sock_struct_t) :
    List (List Nat × Bool × errno_t × send_outcome × read_outcome) → List send_result
  | [] => []
  | c :: cs =>
    let r := msg_sock_hdlr_send s c.1 c.2.1 c.2.2.1 c.2.2.2.1 c.2.2.2.2
    r :: send_calls r.sock_struct cs

/-- A receiver session after a client connected: listener 3, connection 4,
listen timeout of one second, no I/O timeout. -/
def sample_receiver : sock_struct_t :=
  { host := [], port := 16273, lsd := 3, csd := 4, lto := 1, cto := 0, valid := 1,
    result := MSH_CLIENT_CONNECTED }

/-- A receiver session after listener acquisition: listener 3, no connection,
listen timeout of one second. -/
def sample_listener : sock_struct_t :=
  { host := [], port := 16273, lsd := 3, csd := 0, lto := 1, cto := 0, valid := 1,
    result := MSH_LISTENER_CREATED }

/-- A sender session after it connected on descriptor 5. -/
def sample_sender : sock_struct_t :=
  { host := [108, 111, 99, 97, 108, 104, 111, 115, 116], port := 16273, lsd := 0, csd := 5,
    lto := 10, cto := 10, valid := 1, result := MSH_CLIENT_CONNECTED }

/-- The connected sender session with both timeouts out of range: `lto` above
the one-day cap and `cto` negative; `valid` is still 1. -/
def sample_bad_timeouts : sock_struct_t :=
  { sample_sender with lto := 86401, cto := -1 }

/-- The connected receiver session with `valid` cleared by an earlier call. -/
def sample_receiver_cleared : sock_struct_t :=
  { sample_receiver with valid := 0 }

/-- The five bytes of "ping" and its terminator. -/
def sample_ping : List Nat := [112, 105, 110, 103, 0]

/-- What `msg_sock_hdlr_recv` leaves on `sample_receiver` after "ping" arrived in
one read into a buffer of eight bytes and the ACK was requested and sent. -/
def sample_ping_received : recv_result :=
  { sock_struct := { sample_receiver with result := MSH_MESSAGE_RECVD },
    message_buf := [112, 105, 110, 103, 0, 255, 255, 255],
    message_size := 5,
    trace := [io_read 4 1024,
              io_send 4 [58, 65, 67, 75, 58, 66, 121, 116, 101, 67, 111, 117, 110, 116, 58, 53]],
    unread := [],
    exit_at := some loop_exit.short_read }

/-- What `msg_sock_hdlr_recv` leaves on `sample_receiver` after a chunk of ten
bytes was rejected for a buffer of five and the ACK was requested and sent. -/
def sample_overflow_acked : recv_result :=
  { sock_struct := { sample_receiver with result := MSH_MESSAGE_RECVD_OVERFLOW },
    message_buf := [255, 255, 255, 255, 255],
    message_size := 0,
    trace := [io_read 4 1024,
              io_send 4 [58, 65, 67, 75, 58, 66, 121, 116, 101, 67, 111, 117, 110, 116, 58, 48]],
    unread := [read_outcome.closed],
    exit_at := some loop_exit.overflow }

/-- The connected receiver session with an I/O timeout of two seconds. -/
def sample_receiver_timed : sock_struct_t :=
  { sample_receiver with cto := 2 }

/-- What `msg_sock_hdlr_recv` leaves on `sample_receiver_timed` when the first
read times out, with a buffer of eight bytes. -/
def sample_timed_out : recv_result :=
  { sock_struct := { sample_receiver_timed with result := MSH_MESSAGE_RECV_TIMEOUT },
    message_buf := [255, 255, 255, 255, 255, 255, 255, 255],
    message_size := 0,
    trace := [io_read 4 1024],
    unread := [read_outcome.closed],
    exit_at := some loop_exit.read_not_positive }

/-- What `msg_sock_hdlr_recv` leaves on `sample_receiver` after the two bytes of
"hi" arrived without terminator into a buffer of eight bytes. -/
def sample_hi_unterminated : recv_result :=
  { sock_struct := { sample_receiver with result := MSH_MESSAGE_RECVD },
    message_buf := [104, 105, 255, 255, 255, 255, 255, 255],
    message_size := 2,
    trace := [io_read 4 1024],
    unread := [],
    exit_at := some loop_exit.short_read }

/-- The eleven bytes of "hello world" and its terminator. -/
def sample_hello : List Nat := [104, 101, 108, 108, 111, 32, 119, 111, 114, 108, 100, 0]

/-- What `msg_sock_hdlr_recv` leaves on `sample_receiver` after "hello world"
arrived in one read into a buffer of sixteen bytes and the ACK was requested and
sent: the ACK is `:ACK:ByteCount:12`. -/
def sample_hello_received : recv_result :=
  { sock_struct := { sample_receiver with result := MSH_MESSAGE_RECVD },
    message_buf := [104, 101, 108, 108, 111, 32, 119, 111, 114, 108, 100, 0, 255, 255, 255, 255],
    message_size := 12,
    trace := [io_read 4 1024,
              io_send 4 [58, 65, 67, 75, 58, 66, 121, 116, 101, 67, 111, 117, 110, 116, 58,
                         49, 50]],
    unread := [],
    exit_at := some loop_exit.short_read }

/-! ## Lemmas on the buffer operations and on the read loop -/

/-- A copy to the start of the destination replaces its first bytes. -/
theorem memcpy_zero (dst src : List Nat) :
    memcpy dst 0 src = src ++ dst.drop src.length := by
  simp [memcpy]

/-- A copy that stays inside the destination keeps its length. -/
theorem memcpy_length (dst src : List Nat) (off : Nat) (h : off + src.length ≤ dst.length) :
    (memcpy dst off src).length = dst.length := by
  simp only [memcpy, List.length_append, List.length_take, List.length_drop]
  omega

/-- The last byte copied is the last byte of the source. -/
theorem memcpy_getD_last (dst src : List Nat) (off : Nat) (h : off ≤ dst.length)
    (hs : src ≠ []) (d : Nat) :
    (memcpy dst off src).getD (off + src.length - 1) d = src.getD (src.length - 1) d := by
  have hlen : 0 < src.length := List.length_pos.mpr hs
  have htake : (dst.take off).length = off := by simp [List.length_take, h]
  simp only [memcpy, List.append_assoc, List.getD_eq_getElem?_getD]
  rw [List.getElem?_append_right (by omega)]
  rw [htake, List.getElem?_append_left (by omega)]
  congr 2
  omega

/-- Two copies, one behind the other, are one copy of the concatenation. -/
theorem memcpy_memcpy (dst a b : List Nat) (off : Nat) (h : off ≤ dst.length) :
    memcpy (memcpy dst off a) (off + a.length) b = memcpy dst off (a ++ b) := by
  have htake : (dst.take off).length = off := by simp [List.length_take, h]
  have h1 : (memcpy dst off a).take (off + a.length) = dst.take off ++ a := by
    simp only [memcpy]
    rw [List.take_append_eq_append_take]
    simp [htake]
  have h2 : (memcpy dst off a).drop (off + a.length + b.length) =
      dst.drop (off + (a ++ b).length) := by
    simp only [memcpy, List.append_assoc]
    rw [List.drop_append_eq_append_drop, List.drop_append_eq_append_drop]
    have e1 : (dst.take off).drop (off + a.length + b.length) = [] :=
      List.drop_eq_nil_of_le (by omega)
    have e2 : a.drop (off + a.length + b.length - (dst.take off).length) = [] :=
      List.drop_eq_nil_of_le (by omega)
    rw [e1, e2, htake, List.length_append]
    simp only [List.nil_append, List.drop_drop]
    congr 1
    omega
  rw [memcpy, h1, h2, memcpy]
  simp

/-- Full chunks add up to a multiple of the read buffer size. -/
theorem full_chunks_length (pre : List (List Nat))
    (hpre : ∀ c ∈ pre, c.length = rd_buf_size ∧ c.getD (rd_buf_size - 1) 0 ≠ 0) :
    pre.flatten.length = rd_buf_size * pre.length := by
  induction pre with
  | nil => simp
  | cons c pre ih =>
    have hc := (hpre c (List.mem_cons_self _ _)).1
    have ih1 := ih (fun d hd => hpre d (List.mem_cons_of_mem _ hd))
    simp only [List.flatten_cons, List.length_append, List.length_cons, hc, ih1]
    ring

/-- A value in the range of a C `int` is the value the `int` holds. -/
theorem int32_eq (x : Int) (hlo : -2147483648 ≤ x) (hhi : x ≤ 2147483647) : int32 x = x := by
  unfold int32
  omega

/-- A read that returns a positive count stored a non-empty chunk. -/
theorem read_return_pos (r : read_outcome) (h : 0 < read_return r) :
    ∃ c, r = read_outcome.data c ∧ c ≠ [] := by
  cases r with
  | data c =>
    refine ⟨c, rfl, ?_⟩
    intro h0
    subst h0
    simp [read_return] at h
  | closed => simp [read_return] at h
  | failed e => simp [read_return] at h

/-- One turn of the read loop on a read that returns no byte: the loop is left
with the variables as they are. -/
theorem recv_loop_cons_stop (sd : Int) (cap : Int) (r : read_outcome)
    (tail : List read_outcome) (buf : List Nat) (m : Int) (rc : msh_result) (e : errno_t)
    (tr : List io_event) (hr : ¬ 0 < read_return r) :
    recv_loop sd cap (r :: tail) buf m rc e tr =
      some { message_buf := buf, message_size := m, return_code := rc,
             bytes_read := read_return r, errno := read_errno r e,
             trace := tr ++ [io_read sd rd_buf_size], unread := tail,
             exit_at := .read_not_positive } := by
  rw [recv_loop]
  simp only
  rw [if_neg (by simpa using hr)]

/-- One turn of the read loop on a read that stored a non-empty chunk, in the
32-bit arithmetic of the code: the overflow branch, the two branches that end
the message, or the next turn. -/
theorem recv_loop_cons_int (sd : Int) (cap : Int) (c : List Nat) (tail : List read_outcome)
    (buf : List Nat) (m : Int) (rc : msh_result) (e : errno_t) (tr : List io_event)
    (hc : c ≠ []) :
    recv_loop sd cap (read_outcome.data c :: tail) buf m rc e tr =
      if int32 (int32 (m + c.length) + (if c.getD (c.length - 1) 0 = 0 then 0 else 1)) > cap then
        some { message_buf := buf, message_size := int32 (-1 * m),
               return_code := MSH_MESSAGE_RECVD_OVERFLOW, bytes_read := c.length, errno := e,
               trace := tr ++ [io_read sd rd_buf_size], unread := tail, exit_at := .overflow }
      else if c.length < rd_buf_size then
        some { message_buf := memcpy buf m.toNat c, message_size := int32 (m + c.length),
               return_code := MSH_MESSAGE_RECVD, bytes_read := c.length, errno := e,
               trace := tr ++ [io_read sd rd_buf_size], unread := tail,
               exit_at := .short_read }
      else if (memcpy buf m.toNat c).getD (int32 (int32 (m + c.length) - 1)).toNat 0 = 0 then
        some { message_buf := memcpy buf m.toNat c, message_size := int32 (m + c.length),
               return_code := MSH_MESSAGE_RECVD, bytes_read := c.length, errno := e,
               trace := tr ++ [io_read sd rd_buf_size], unread := tail,
               exit_at := .trailing_null }
      else
        recv_loop sd cap tail (memcpy buf m.toNat c) (int32 (m + c.length))
          MSH_MESSAGE_RECVD e (tr ++ [io_read sd rd_buf_size]) := by
  have hpos : 0 < c.length := List.length_pos.mpr hc
  have hidx : ((c.length : Int) - 1).toNat = c.length - 1 := by omega
  have hlt : ((c.length : Int) < (rd_buf_size : Int)) ↔ c.length < rd_buf_size := by
    exact_mod_cast Iff.rfl
  rw [recv_loop]
  simp only [read_return, read_data, read_errno, hidx, hlt]
  rw [if_pos (by omega)]

/-- One turn of the read loop on a read that stored a non-empty chunk, with the
size so far a natural number and the sum of the capacity check in the range of
an `int`: the arithmetic is exact. -/
theorem recv_loop_cons_data (sd : Int) (cap : Int) (c : List Nat) (tail : List read_outcome)
    (buf : List Nat) (n : Nat) (rc : msh_result) (e : errno_t) (tr : List io_event)
    (hc : c ≠ [])
    (hrep : (n : Int) + c.length + (if c.getD (c.length - 1) 0 = 0 then 0 else 1)
      ≤ 2147483647) :
    recv_loop sd cap (read_outcome.data c :: tail) buf n rc e tr =
      if (n : Int) + c.length + (if c.getD (c.length - 1) 0 = 0 then 0 else 1) > cap then
        some { message_buf := buf, message_size := -1 * (n : Int),
               return_code := MSH_MESSAGE_RECVD_OVERFLOW, bytes_read := c.length, errno := e,
               trace := tr ++ [io_read sd rd_buf_size], unread := tail, exit_at := .overflow }
      else if c.length < rd_buf_size then
        some { message_buf := memcpy buf n c, message_size := ((n + c.length : Nat) : Int),
               return_code := MSH_MESSAGE_RECVD, bytes_read := c.length, errno := e,
               trace := tr ++ [io_read sd rd_buf_size], unread := tail,
               exit_at := .short_read }
      else if (memcpy buf n c).getD (n + c.length - 1) 0 = 0 then
        some { message_buf := memcpy buf n c, message_size := ((n + c.length : Nat) : Int),
               return_code := MSH_MESSAGE_RECVD, bytes_read := c.length, errno := e,
               trace := tr ++ [io_read sd rd_buf_size], unread := tail,
               exit_at := .trailing_null }
      else
        recv_loop sd cap tail (memcpy buf n c) ((n + c.length : Nat) : Int)
          MSH_MESSAGE_RECVD e (tr ++ [io_read sd rd_buf_size]) := by
  have hpos : 0 < c.length := List.length_pos.mpr hc
  have hadd : (0 : Int) ≤ (if c.getD (c.length - 1) 0 = 0 then 0 else 1) := by
    split <;> simp
  have h1 : int32 ((n : Int) + c.length) = (n : Int) + c.length :=
    int32_eq _ (by omega) (by omega)
  have h2 : int32 ((n : Int) + c.length + (if c.getD (c.length - 1) 0 = 0 then 0 else 1))
      = (n : Int) + c.length + (if c.getD (c.length - 1) 0 = 0 then 0 else 1) :=
    int32_eq _ (by omega) hrep
  have h3 : int32 (-1 * (n : Int)) = -1 * (n : Int) := int32_eq _ (by omega) (by omega)
  have h4 : int32 ((n : Int) + c.length - 1) = (n : Int) + c.length - 1 :=
    int32_eq _ (by omega) (by omega)
  have hidx : ((n : Int) + (c.length : Int) - 1).toNat = n + c.length - 1 := by omega
  rw [recv_loop_cons_int sd cap c tail buf n rc e tr hc]
  simp only [h1, h2, h3, h4, hidx, Int.toNat_natCast, Nat.cast_add]

/-- One turn of the read loop on a full chunk that passes the capacity check and
does not end in a null byte: the chunk is copied and the loop goes on. -/
theorem recv_loop_full (sd : Int) (cap : Int) (c : List Nat) (tail : List read_outcome)
    (buf : List Nat) (n : Nat) (rc : msh_result) (e : errno_t) (tr : List io_event)
    (hlen : c.length = rd_buf_size) (hlast : c.getD (rd_buf_size - 1) 0 ≠ 0)
    (hfit : (n : Int) + rd_buf_size + 1 ≤ cap) (hbuf : cap ≤ buf.length)
    (hint : cap ≤ 2147483647) :
    recv_loop sd cap (.data c :: tail) buf n rc e tr =
      recv_loop sd cap tail (memcpy buf n c) ((n + rd_buf_size : Nat) : Int)
        MSH_MESSAGE_RECVD e (tr ++ [io_read sd rd_buf_size]) := by
  have hn : n ≤ buf.length := by omega
  have hne : c ≠ [] := by
    intro h0
    rw [h0] at hlen
    simp [rd_buf_size] at hlen
  have hlast1 : ¬ c.getD (c.length - 1) 0 = 0 := by rw [hlen]; exact hlast
  have hlast2 : ¬ (memcpy buf n c).getD (n + c.length - 1) 0 = 0 := by
    rw [memcpy_getD_last buf c n hn hne 0]
    exact hlast1
  rw [recv_loop_cons_data sd cap c tail buf n rc e tr hne (by rw [if_neg hlast1, hlen]; omega)]
  rw [if_neg hlast1, if_neg (by rw [hlen]; omega), if_neg (by rw [hlen]; simp), if_neg hlast2,
    hlen]

/-- The read loop over a run of full chunks that pass the capacity check and do
not end in a null byte: all are copied, one behind the other, and the loop goes
on with the reads behind them. -/
theorem recv_loop_full_chunks (sd : Int) (cap : Int) (pre : List (List Nat)) :
    ∀ (tail : List read_outcome) (buf : List Nat) (n : Nat) (rc : msh_result) (e : errno_t)
      (tr : List io_event),
      (∀ c ∈ pre, c.length = rd_buf_size ∧ c.getD (rd_buf_size - 1) 0 ≠ 0) →
      (pre ≠ [] → (n : Int) + rd_buf_size * pre.length + 1 ≤ cap) →
      cap ≤ buf.length → cap ≤ 2147483647 →
      recv_loop sd cap (pre.map read_outcome.data ++ tail) buf n rc e tr =
        recv_loop sd cap tail (memcpy buf n pre.flatten)
          ((n + rd_buf_size * pre.length : Nat) : Int)
          (if pre = [] then rc else MSH_MESSAGE_RECVD) e
          (tr ++ List.replicate pre.length (io_read sd rd_buf_size)) := by
  induction pre with
  | nil =>
    intro tail buf n rc e tr _ _ _ _
    simp [memcpy]
  | cons c pre ih =>
    intro tail buf n rc e tr hpre hfit hbuf hint
    have hc := hpre c (List.mem_cons_self _ _)
    have hpre1 : ∀ d ∈ pre, d.length = rd_buf_size ∧ d.getD (rd_buf_size - 1) 0 ≠ 0 :=
      fun d hd => hpre d (List.mem_cons_of_mem _ hd)
    have hfit0 := hfit (List.cons_ne_nil _ _)
    simp only [List.length_cons, Nat.cast_add, Nat.cast_one] at hfit0
    have hfit1 : (n : Int) + rd_buf_size + 1 ≤ cap := by
      have : (0 : Int) ≤ (rd_buf_size : Int) * (pre.length : Int) := by positivity
      nlinarith
    have hn : n + c.length ≤ buf.length := by rw [hc.1]; omega
    have hlen1 : (memcpy buf n c).length = buf.length := memcpy_length buf c n hn
    rw [List.map_cons, List.cons_append,
      recv_loop_full sd cap c _ buf n rc e tr hc.1 hc.2 hfit1 hbuf hint]
    rw [ih tail (memcpy buf n c) (n + rd_buf_size) MSH_MESSAGE_RECVD e _ hpre1
      (by intro _; push_cast; nlinarith) (by rw [hlen1]; exact hbuf) hint]
    have hmm : memcpy (memcpy buf n c) (n + rd_buf_size) pre.flatten =
        memcpy buf n (c :: pre).flatten := by
      rw [← hc.1, memcpy_memcpy buf c pre.flatten n (by omega), List.flatten_cons]
    rw [hmm]
    have hsz : n + rd_buf_size + rd_buf_size * pre.length =
        n + rd_buf_size * (c :: pre).length := by
      simp only [List.length_cons]; ring
    rw [hsz]
    simp [List.replicate_succ]

/-- One turn of the read loop on a chunk that passes the capacity check and is
short or null-terminated: the loop ends there. -/
theorem recv_loop_final (sd : Int) (cap : Int) (c : List Nat) (tail : List read_outcome)
    (buf : List Nat) (n : Nat) (rc : msh_result) (e : errno_t) (tr : List io_event)
    (hc : c ≠ [])
    (hfit : (n : Int) + c.length + (if c.getD (c.length - 1) 0 = 0 then 0 else 1) ≤ cap)
    (hbuf : cap ≤ buf.length) (hint : cap ≤ 2147483647)
    (hend : c.length < rd_buf_size ∨ c.getD (c.length - 1) 0 = 0) :
    recv_loop sd cap (.data c :: tail) buf n rc e tr =
      some { message_buf := memcpy buf n c, message_size := ((n + c.length : Nat) : Int),
             return_code := MSH_MESSAGE_RECVD, bytes_read := c.length, errno := e,
             trace := tr ++ [io_read sd rd_buf_size], unread := tail,
             exit_at := if c.length < rd_buf_size then .short_read else .trailing_null } := by
  have hn : n ≤ buf.length := by
    split at hfit <;> omega
  have hlast2 : (memcpy buf n c).getD (n + c.length - 1) 0 = c.getD (c.length - 1) 0 :=
    memcpy_getD_last buf c n hn hc 0
  rw [recv_loop_cons_data sd cap c tail buf n rc e tr hc (le_trans hfit hint),
    if_neg (not_lt.mpr hfit), hlast2]
  by_cases hshort : c.length < rd_buf_size
  · rw [if_pos hshort, if_pos hshort]
  · have hz : c.getD (c.length - 1) 0 = 0 := hend.resolve_left hshort
    rw [if_neg hshort, if_pos hz, if_neg hshort]

/-- The validation block of `msg_sock_hdlr_recv` only clears `valid`, and does
so exactly when a descriptor is absent or a timeout is negative. -/
theorem recv_validate_eq (s : sock_struct_t) :
    recv_validate s =
      { s with valid := if s.lsd = 0 ∨ s.csd = 0 ∨ s.lto < 0 ∨ s.cto < 0 then 0
                        else s.valid } := by
  unfold recv_validate
  by_cases h1 : s.lsd = 0 <;> by_cases h2 : s.csd = 0 <;> by_cases h3 : s.lto < 0 <;>
    by_cases h4 : s.cto < 0 <;> simp [h1, h2, h3, h4]

/-- The validation block of `msg_sock_hdlr_listen` only clears `valid`, and does
so exactly when the listener is absent or a timeout is negative. -/
theorem listen_validate_eq (s : sock_struct_t) :
    listen_validate s =
      { s with valid := if s.lsd = 0 ∨ s.lto < 0 ∨ s.cto < 0 then 0 else s.valid } := by
  unfold listen_validate
  by_cases h1 : s.lsd = 0 <;> by_cases h3 : s.lto < 0 <;>
    by_cases h4 : s.cto < 0 <;> simp [h1, h3, h4]

/-- The validation block of `msg_sock_hdlr_send` only clears `valid`, and does
so exactly when the connected descriptor is absent. -/
theorem send_validate_eq (s : sock_struct_t) :
    send_validate s = { s with valid := if s.csd = 0 then 0 else s.valid } := by
  unfold send_validate
  by_cases h1 : s.csd = 0 <;> simp [h1]

/-- On a session that passes validation, with no ACK requested and a loop left
after a positive read, `msg_sock_hdlr_recv` reports what the loop computed. -/
theorem recv_valid_session (s : sock_struct_t) (message_buf : List Nat) (message_buf_len : Int)
    (errno0 : errno_t) (reads : List read_outcome) (ack_send : send_outcome)
    (l : recv_loop_result)
    (hlsd : s.lsd ≠ 0) (hcsd : s.csd ≠ 0) (hlto : 0 ≤ s.lto) (hcto : 0 ≤ s.cto)
    (hvalid : s.valid ≠ 0)
    (hloop : recv_loop s.csd message_buf_len reads message_buf 0 MSH_MESSAGE_NOT_RECVD errno0 []
      = some l)
    (hpos : 0 < l.bytes_read) :
    msg_sock_hdlr_recv s message_buf message_buf_len false errno0 reads ack_send =
      some { sock_struct := { s with result := l.return_code }, message_buf := l.message_buf,
             message_size := l.message_size, trace := l.trace, unread := l.unread,
             exit_at := some l.exit_at } := by
  have h0 : ¬ l.bytes_read = 0 := by omega
  have h1 : ¬ l.bytes_read < 0 := by omega
  simp [msg_sock_hdlr_recv, recv_finish, recv_validate_eq, hlsd, hcsd, not_lt.mpr hlto,
    not_lt.mpr hcto, hvalid, hloop, h0, h1]

/-- Full chunks without a trailing null followed by an accepted chunk that is
short or null-terminated: `msg_sock_hdlr_recv` copies all of them in order and
reports `MSH_MESSAGE_RECVD`.  The capacity is a C `int`. -/
theorem recv_chunks_accepted (s : sock_struct_t) (message_buf : List Nat)
    (message_buf_len : Int) (errno0 : errno_t) (pre : List (List Nat)) (c : List Nat)
    (rest : List read_outcome) (ack_send : send_outcome)
    (hlsd : s.lsd ≠ 0) (hcsd : s.csd ≠ 0) (hlto : 0 ≤ s.lto) (hcto : 0 ≤ s.cto)
    (hvalid : s.valid ≠ 0)
    (hbuf : message_buf_len ≤ message_buf.length)
    (hint : message_buf_len ≤ 2147483647)
    (hpre : ∀ d ∈ pre, d.length = rd_buf_size ∧ d.getD (rd_buf_size - 1) 0 ≠ 0)
    (hc : c ≠ [])
    (hend : c.length < rd_buf_size ∨ c.getD (c.length - 1) 0 = 0)
    (hfit : (rd_buf_size : Int) * pre.length + c.length
      + (if c.getD (c.length - 1) 0 = 0 then 0 else 1) ≤ message_buf_len) :
    msg_sock_hdlr_recv s message_buf message_buf_len false errno0
        (pre.map read_outcome.data ++ read_outcome.data c :: rest) ack_send =
      some { sock_struct := { s with result := MSH_MESSAGE_RECVD },
             message_buf := (pre ++ [c]).flatten
               ++ message_buf.drop (pre ++ [c]).flatten.length,
             message_size := ((pre ++ [c]).flatten.length : Int),
             trace := List.replicate (pre.length + 1) (io_read s.csd rd_buf_size),
             unread := rest,
             exit_at := some (if c.length < rd_buf_size then loop_exit.short_read
                              else loop_exit.trailing_null) } := by
  have hpos : 0 < c.length := List.length_pos.mpr hc
  have hflat := full_chunks_length pre hpre
  have hfit1 : pre ≠ [] → ((0 : Nat) : Int) + rd_buf_size * pre.length + 1 ≤ message_buf_len := by
    intro _
    split at hfit <;> omega
  have hloop := recv_loop_full_chunks s.csd message_buf_len pre (read_outcome.data c :: rest)
    message_buf 0 MSH_MESSAGE_NOT_RECVD errno0 [] hpre hfit1 hbuf hint
  have hlen1 : (memcpy message_buf 0 pre.flatten).length = message_buf.length := by
    apply memcpy_length
    rw [hflat]
    split at hfit <;> omega
  rw [recv_loop_final s.csd message_buf_len c rest _ _ _ errno0 _ hc
    (by push_cast; simpa using hfit) (by rw [hlen1]; exact hbuf) hint hend] at hloop
  have hmm : memcpy (memcpy message_buf 0 pre.flatten) (0 + rd_buf_size * pre.length) c =
      memcpy message_buf 0 (pre.flatten ++ c) := by
    rw [← hflat, memcpy_memcpy message_buf pre.flatten c 0 (Nat.zero_le _)]
  rw [hmm] at hloop
  rw [recv_valid_session s message_buf message_buf_len errno0 _ ack_send _ hlsd hcsd hlto hcto
    hvalid hloop (by simpa using hpos)]
  simp only [memcpy_zero, List.flatten_append, List.flatten_cons, List.flatten_nil,
    List.append_nil, List.length_append, hflat]
  simp [List.replicate_succ']

/-! ## Lemmas on validation, on the accept loop and on the sender -/

/-- The accept loop goes on over failed accepts that are no time-out observed
with the shutdown flag set. -/
theorem listen_loop_skips (s : sock_struct_t) (set_cli_timeout snd_ok rcv_ok : Bool)
    (pre : List accept_step) :
    ∀ (tail : List accept_step) (errno : errno_t) (tr : List io_event),
      (∀ p ∈ pre, ∃ e, p.outcome = accept_outcome.failed e ∧
        ((e = EWOULDBLOCK ∨ e = EAGAIN) → p.shutdownFlag = 0)) →
      ∃ errno1, listen_loop s true set_cli_timeout snd_ok rcv_ok (pre ++ tail) errno tr =
        listen_loop s true set_cli_timeout snd_ok rcv_ok tail errno1
          (tr ++ List.replicate pre.length (io_accept s.lsd)) := by
  induction pre with
  | nil =>
    intro tail errno tr _
    exact ⟨errno, by simp⟩
  | cons p pre ih =>
    intro tail errno tr hpre
    obtain ⟨e, he, hflag⟩ := hpre p (List.mem_cons_self _ _)
    obtain ⟨errno1, h1⟩ := ih tail e (tr ++ [io_accept s.lsd])
      (fun q hq => hpre q (List.mem_cons_of_mem _ hq))
    refine ⟨errno1, ?_⟩
    rw [List.cons_append, listen_loop]
    simp only [he, accept_return, accept_errno, if_true]
    by_cases hto : e = EWOULDBLOCK ∨ e = EAGAIN
    · have hz := hflag hto
      simp only [hz, ne_eq, not_true_eq_false, if_false]
      rw [h1]
      simp [List.replicate_succ]
    · obtain ⟨hne1, hne2⟩ := not_or.mp hto
      simp only [hne1, hne2, decide_False, Bool.or_self, Bool.false_eq_true, if_false]
      rw [h1]
      simp [List.replicate_succ]

/-- A send on a session without connected descriptor is rejected before any
call is made, and the descriptor stays absent. -/
theorem send_without_csd (s : sock_struct_t) (message_buf : List Nat) (awaitAck : Bool)
    (errno0 : errno_t) (msg_send : send_outcome) (ack_read : read_outcome) (hcsd : s.csd = 0) :
    msg_sock_hdlr_send s message_buf awaitAck errno0 msg_send ack_read =
      { sock_struct := { s with valid := 0, result := MSH_INVALID_SOCKSTRUCT }, trace := [],
        errno := errno0 } := by
  simp [msg_sock_hdlr_send, send_validate_eq, hcsd]

/-- Every call of a series of sends on a session without connected descriptor is
rejected before any call is made. -/
theorem send_calls_without_csd
    (later : List (List Nat × Bool × errno_t × send_outcome × read_outcome)) :
    ∀ (s : sock_struct_t), s.csd = 0 →
      ∀ r ∈ send_calls s later,
        r.sock_struct.result = MSH_INVALID_SOCKSTRUCT ∧ r.trace = [] := by
  induction later with
  | nil =>
    intro s _ r hr
    simp [send_calls] at hr
  | cons c later ih =>
    intro s hcsd r hr
    rw [send_calls] at hr
    simp only [send_without_csd s c.1 c.2.1 c.2.2.1 c.2.2.2.1 c.2.2.2.2 hcsd,
      List.mem_cons] at hr
    rcases hr with rfl | hr
    · exact ⟨rfl, rfl⟩
    · exact ih { s with valid := 0, result := MSH_INVALID_SOCKSTRUCT } hcsd r hr

/-- The candidate loop of the listener only adds calls to the trace. -/
theorem bind_loop_trace (cands : List bind_candidate) :
    ∀ (tr : List io_event), ∃ t, (bind_loop cands tr).2 = tr ++ t := by
  induction cands with
  | nil => intro tr; exact ⟨[], by simp [bind_loop]⟩
  | cons c cands ih =>
    intro tr
    rw [bind_loop]
    by_cases h1 : c.socket_ret = -1
    · obtain ⟨t, ht⟩ := ih (tr ++ [io_socket c.ai_family])
      exact ⟨io_socket c.ai_family :: t, by simp [h1, ht]⟩
    · by_cases h2 : c.reuse_ok
      · by_cases h3 : c.bind_ok
        · exact ⟨[io_socket c.ai_family, io_setsockopt c.socket_ret .SO_REUSEADDR 1,
            io_bind c.socket_ret], by simp [h1, h2, h3]⟩
        · obtain ⟨t, ht⟩ := ih (tr ++ [io_socket c.ai_family]
            ++ [io_setsockopt c.socket_ret .SO_REUSEADDR 1] ++ [io_bind c.socket_ret]
            ++ [io_close c.socket_ret])
          refine ⟨[io_socket c.ai_family, io_setsockopt c.socket_ret .SO_REUSEADDR 1,
            io_bind c.socket_ret, io_close c.socket_ret] ++ t, ?_⟩
          simp only [h1, h2, h3, if_false, Bool.not_true, Bool.not_false, if_true,
            Bool.false_eq_true, ht]
          simp
      · exact ⟨[io_socket c.ai_family, io_setsockopt c.socket_ret .SO_REUSEADDR 1],
          by simp [h1, h2]⟩

/-- The validation block of `msg_sock_hdlr_open_for_recv` sets `valid` from the
descriptors and the timeouts alone and touches no other field. -/
theorem open_for_recv_validate_eq (s : sock_struct_t) :
    open_for_recv_validate s =
      { s with valid := if s.lsd ≠ 0 ∨ s.csd ≠ 0 ∨ s.lto < 0 ∨ s.cto < 0 ∨ 86400 < s.lto
                          ∨ 86400 < s.cto then 0 else 1 } := by
  unfold open_for_recv_validate
  by_cases h1 : s.lsd = 0 <;> by_cases h2 : s.csd = 0 <;> by_cases h3 : s.lto < 0 <;>
    by_cases h4 : s.cto < 0 <;> by_cases h5 : 86400 < s.lto <;> by_cases h6 : 86400 < s.cto <;>
    simp [h1, h2, h3, h4, h5, h6]

/-- When its guard fails, `msg_sock_hdlr_open_for_recv` returns at once. -/
theorem open_for_recv_rejected (s : sock_struct_t) (sig : Bool)
    (gai : Option (List bind_candidate)) (rcv_ok snd_ok : Bool)
    (h : s.lsd ≠ 0 ∨ s.csd ≠ 0 ∨ s.lto < 0 ∨ s.cto < 0 ∨ 86400 < s.lto ∨ 86400 < s.cto) :
    msg_sock_hdlr_open_for_recv s sig gai rcv_ok snd_ok =
      { sock_struct := { s with valid := 0, result := MSH_INVALID_SOCKSTRUCT },
        SIG_IGN_SET := sig, trace := [] } := by
  unfold msg_sock_hdlr_open_for_recv
  rw [open_for_recv_validate_eq, if_pos h]
  simp

/-- When its guard holds, `msg_sock_hdlr_open_for_recv` goes on to
`getaddrinfo` and ends with another result than `MSH_INVALID_SOCKSTRUCT`. -/
theorem open_for_recv_accepted (s : sock_struct_t) (sig : Bool)
    (gai : Option (List bind_candidate)) (rcv_ok snd_ok : Bool)
    (h : ¬ (s.lsd ≠ 0 ∨ s.csd ≠ 0 ∨ s.lto < 0 ∨ s.cto < 0 ∨ 86400 < s.lto ∨ 86400 < s.cto)) :
    (msg_sock_hdlr_open_for_recv s sig gai rcv_ok snd_ok).sock_struct.result
        ≠ MSH_INVALID_SOCKSTRUCT
      ∧ (msg_sock_hdlr_open_for_recv s sig gai rcv_ok snd_ok).trace ≠ [] := by
  unfold msg_sock_hdlr_open_for_recv
  rw [open_for_recv_validate_eq, if_neg h]
  simp only [one_ne_zero, if_false]
  cases gai with
  | none => simp
  | some servinfo =>
    simp only
    obtain ⟨t, ht⟩ := bind_loop_trace servinfo
      ((if (!sig) = true then [io_sigaction] else [])
        ++ [io_getaddrinfo LISTENER_INTERFACES_IPV6 s.port])
    rcases hb : bind_loop servinfo ((if (!sig) = true then [io_sigaction] else [])
        ++ [io_getaddrinfo LISTENER_INTERFACES_IPV6 s.port]) with ⟨ex, tr⟩
    rw [hb] at ht
    simp only at ht
    cases ex with
    | bound sd =>
      simp only
      by_cases hl : 0 < s.lto <;> cases rcv_ok <;> cases snd_ok <;> simp [hl, ht]
    | exhausted => simp [ht]
    | setsockopt_failed => simp [ht]

/-- When `valid` is 0 or a check of the validation block of
`msg_sock_hdlr_listen` fails, the function returns at once. -/
theorem listen_rejected (s : sock_struct_t) (errno0 : errno_t) (listen_ok : Bool)
    (accepts : List accept_step) (snd_ok rcv_ok : Bool)
    (h : s.valid = 0 ∨ s.lsd = 0 ∨ s.lto < 0 ∨ s.cto < 0) :
    msg_sock_hdlr_listen s errno0 listen_ok accepts snd_ok rcv_ok =
      some { sock_struct := { s with valid := 0, result := MSH_INVALID_SOCKSTRUCT },
             trace := [], unused := accepts } := by
  unfold msg_sock_hdlr_listen
  rw [listen_validate_eq]
  by_cases hc : s.lsd = 0 ∨ s.lto < 0 ∨ s.cto < 0
  · simp [hc]
  · have h0 : s.valid = 0 := by
      rcases h with h | h | h | h
      · exact h
      · exact absurd (Or.inl h) hc
      · exact absurd (Or.inr (Or.inl h)) hc
      · exact absurd (Or.inr (Or.inr h)) hc
    simp [hc, h0]

/-- The accept loop never ends with `MSH_INVALID_SOCKSTRUCT`, and it keeps the
calls already made. -/
theorem listen_loop_result (s : sock_struct_t) (slt sct snd_ok rcv_ok : Bool)
    (accepts : List accept_step) :
    ∀ (errno : errno_t) (tr : List io_event) (r : listen_result),
      listen_loop s slt sct snd_ok rcv_ok accepts errno tr = some r →
      r.sock_struct.result ≠ MSH_INVALID_SOCKSTRUCT ∧ ∃ t, r.trace = tr ++ t := by
  induction accepts with
  | nil => intro errno tr r h; simp [listen_loop] at h
  | cons a accepts ih =>
    intro errno tr r h
    rw [listen_loop] at h
    have hrec : ∀ e1, listen_loop s slt sct snd_ok rcv_ok accepts e1 (tr ++ [io_accept s.lsd])
        = some r → r.sock_struct.result ≠ MSH_INVALID_SOCKSTRUCT ∧ ∃ t, r.trace = tr ++ t := by
      intro e1 h1
      obtain ⟨hr, t, ht⟩ := ih e1 _ r h1
      exact ⟨hr, io_accept s.lsd :: t, by simp [ht]⟩
    simp only at h
    split at h
    · split at h
      · split at h
        · split at h
          · cases h
            exact ⟨by simp, [io_accept s.lsd], rfl⟩
          · exact hrec _ h
        · exact hrec _ h
      · exact hrec _ h
    · split at h
      · split at h
        · cases h
          exact ⟨by simp, _, by simp only [List.append_assoc]; rfl⟩
        · split at h
          · cases h
            exact ⟨by simp, _, by simp only [List.append_assoc]; rfl⟩
          · cases h
            exact ⟨by simp, _, by simp only [List.append_assoc]; rfl⟩
      · cases h
        exact ⟨by simp, [io_accept s.lsd], rfl⟩

/-- When `valid` is not 0 and the checks of the validation block of
`msg_sock_hdlr_listen` pass, the function calls `listen` and, when it returns,
the result is not `MSH_INVALID_SOCKSTRUCT`. -/
theorem listen_accepted (s : sock_struct_t) (errno0 : errno_t) (listen_ok : Bool)
    (accepts : List accept_step) (snd_ok rcv_ok : Bool)
    (h : ¬ (s.valid = 0 ∨ s.lsd = 0 ∨ s.lto < 0 ∨ s.cto < 0)) (r : listen_result)
    (hr : msg_sock_hdlr_listen s errno0 listen_ok accepts snd_ok rcv_ok = some r) :
    r.sock_struct.result ≠ MSH_INVALID_SOCKSTRUCT ∧ r.trace ≠ [] := by
  simp only [not_or] at h
  obtain ⟨h0, h1, h2, h3⟩ := h
  unfold msg_sock_hdlr_listen at hr
  rw [listen_validate_eq] at hr
  simp only [h0, h1, h2, h3, or_self, if_false] at hr
  cases listen_ok with
  | false =>
    simp at hr
    subst hr
    simp
  | true =>
    simp only [Bool.not_true, Bool.false_eq_true, if_false] at hr
    obtain ⟨hres, t, ht⟩ := listen_loop_result s _ _ snd_ok rcv_ok accepts _ _ r hr
    exact ⟨hres, by rw [ht]; simp⟩

/-- When `valid` is 0 or a check of the validation block of `msg_sock_hdlr_recv`
fails, the function returns at once. -/
theorem recv_rejected (s : sock_struct_t) (message_buf : List Nat) (message_buf_len : Int)
    (sendAck : Bool) (errno0 : errno_t) (reads : List read_outcome) (ack_send : send_outcome)
    (h : s.valid = 0 ∨ s.lsd = 0 ∨ s.csd = 0 ∨ s.lto < 0 ∨ s.cto < 0) :
    msg_sock_hdlr_recv s message_buf message_buf_len sendAck errno0 reads ack_send =
      some { sock_struct := { s with valid := 0, result := MSH_INVALID_SOCKSTRUCT },
             message_buf := message_buf, message_size := 0, trace := [], unread := reads,
             exit_at := none } := by
  unfold msg_sock_hdlr_recv
  rw [recv_validate_eq]
  by_cases hc : s.lsd = 0 ∨ s.csd = 0 ∨ s.lto < 0 ∨ s.cto < 0
  · simp [hc]
  · have h0 : s.valid = 0 := h.resolve_right hc
    simp [hc, h0]

/-- The read loop ends with the return code it started with, with
`MSH_MESSAGE_RECVD` or with `MSH_MESSAGE_RECVD_OVERFLOW`, and it keeps the calls
already made and adds at least one. -/
theorem recv_loop_result_code (sd : Int) (cap : Int) (reads : List read_outcome) :
    ∀ (buf : List Nat) (m : Int) (rc : msh_result) (e : errno_t) (tr : List io_event)
      (l : recv_loop_result),
      recv_loop sd cap reads buf m rc e tr = some l →
      (l.return_code = rc ∨ l.return_code = MSH_MESSAGE_RECVD
        ∨ l.return_code = MSH_MESSAGE_RECVD_OVERFLOW)
      ∧ ∃ t, l.trace = tr ++ io_read sd rd_buf_size :: t := by
  induction reads with
  | nil => intro buf m rc e tr l h; simp [recv_loop] at h
  | cons r reads ih =>
    intro buf m rc e tr l h
    rw [recv_loop] at h
    simp only at h
    split_ifs at h <;> first
      | (cases h; exact ⟨by simp, [], by simp⟩)
      | (obtain ⟨hrc, t, ht⟩ := ih _ _ _ _ _ l h
         exact ⟨by rcases hrc with h1 | h1 | h1 <;> simp [h1],
           io_read sd rd_buf_size :: t, by simp [ht]⟩)

/-- The part of `msg_sock_hdlr_recv` behind the read loop stores the return
code of the loop, `MSH_CLIENT_DISCONNECTED`, `MSH_MESSAGE_RECV_TIMEOUT` or
`MSH_ERROR_ACK_SEND_FAIL`, and keeps the calls of the loop. -/
theorem recv_finish_result (s4 : sock_struct_t) (sendAck : Bool) (ack_send : send_outcome)
    (l : recv_loop_result) :
    ((recv_finish s4 sendAck ack_send l).sock_struct.result = l.return_code
      ∨ (recv_finish s4 sendAck ack_send l).sock_struct.result = MSH_CLIENT_DISCONNECTED
      ∨ (recv_finish s4 sendAck ack_send l).sock_struct.result = MSH_MESSAGE_RECV_TIMEOUT
      ∨ (recv_finish s4 sendAck ack_send l).sock_struct.result = MSH_ERROR_ACK_SEND_FAIL)
    ∧ ∃ t, (recv_finish s4 sendAck ack_send l).trace = l.trace ++ t := by
  unfold recv_finish check_for_broken_socket sock_struct_close_client
  simp only
  split_ifs <;> first | contradiction | simp

/-- When `valid` is not 0 and the checks of the validation block of
`msg_sock_hdlr_recv` pass, the function reads and, when it returns, the result
is not `MSH_INVALID_SOCKSTRUCT`. -/
theorem recv_accepted (s : sock_struct_t) (message_buf : List Nat) (message_buf_len : Int)
    (sendAck : Bool) (errno0 : errno_t) (reads : List read_outcome) (ack_send : send_outcome)
    (h : ¬ (s.valid = 0 ∨ s.lsd = 0 ∨ s.csd = 0 ∨ s.lto < 0 ∨ s.cto < 0)) (r : recv_result)
    (hr : msg_sock_hdlr_recv s message_buf message_buf_len sendAck errno0 reads ack_send
      = some r) :
    r.sock_struct.result ≠ MSH_INVALID_SOCKSTRUCT ∧ r.trace ≠ [] := by
  have hv : ¬ (s.lsd = 0 ∨ s.csd = 0 ∨ s.lto < 0 ∨ s.cto < 0) := fun hc => h (Or.inr hc)
  have h0 : ¬ s.valid = 0 := fun hc => h (Or.inl hc)
  unfold msg_sock_hdlr_recv at hr
  rw [recv_validate_eq] at hr
  simp only [hv, h0, if_false] at hr
  cases hl : recv_loop s.csd message_buf_len reads message_buf 0 MSH_MESSAGE_NOT_RECVD errno0 []
    with
  | none => rw [hl] at hr; simp at hr
  | some l =>
    rw [hl] at hr
    obtain ⟨hrc, t, ht⟩ := recv_loop_result_code _ _ _ _ _ _ _ _ l hl
    simp only [Option.some.injEq] at hr
    obtain ⟨hres, t2, ht2⟩ := recv_finish_result
      { s with valid := if s.lsd = 0 ∨ s.csd = 0 ∨ s.lto < 0 ∨ s.cto < 0 then 0 else s.valid }
      sendAck ack_send l
    simp only [hv, if_false] at hres ht2
    rw [hr] at hres ht2
    constructor
    · rcases hres with h5 | h5 | h5 | h5
      · rw [h5]
        rcases hrc with h6 | h6 | h6 <;> rw [h6] <;> decide
      · rw [h5]; decide
      · rw [h5]; decide
      · rw [h5]; decide
    · rw [ht2, ht]
      simp

/-- The candidate loop of the sender only adds calls to the trace. -/
theorem connect_loop_trace (cands : List connect_candidate) :
    ∀ (tr : List io_event), ∃ t, (connect_loop cands tr).2 = tr ++ t := by
  induction cands with
  | nil => intro tr; exact ⟨[], by simp [connect_loop]⟩
  | cons c cands ih =>
    intro tr
    rw [connect_loop]
    by_cases h1 : c.socket_ret = -1
    · obtain ⟨t, ht⟩ := ih (tr ++ [io_socket c.ai_family])
      exact ⟨io_socket c.ai_family :: t, by simp [h1, ht]⟩
    · by_cases h2 : c.connect_ok
      · exact ⟨[io_socket c.ai_family, io_connect c.socket_ret], by simp [h1, h2]⟩
      · obtain ⟨t, ht⟩ := ih (tr ++ [io_socket c.ai_family] ++ [io_connect c.socket_ret]
            ++ [io_close c.socket_ret])
        refine ⟨[io_socket c.ai_family, io_connect c.socket_ret, io_close c.socket_ret] ++ t, ?_⟩
        simp only [h1, h2, if_false, Bool.not_false, if_true, ht]
        simp

/-- With `valid` equal to 0, `msg_sock_hdlr_open_for_send` returns at once. -/
theorem open_for_send_rejected (s : sock_struct_t) (sig : Bool)
    (gai : Option (List connect_candidate)) (snd_ok rcv_ok : Bool) (h : s.valid = 0) :
    msg_sock_hdlr_open_for_send s sig gai snd_ok rcv_ok =
      { sock_struct := { s with result := MSH_INVALID_SOCKSTRUCT }, SIG_IGN_SET := sig,
        trace := [] } := by
  simp [msg_sock_hdlr_open_for_send, h]

/-- With `valid` different from 0, `msg_sock_hdlr_open_for_send` goes on to
`getaddrinfo` and ends with another result than `MSH_INVALID_SOCKSTRUCT`. -/
theorem open_for_send_accepted (s : sock_struct_t) (sig : Bool)
    (gai : Option (List connect_candidate)) (snd_ok rcv_ok : Bool) (h : s.valid ≠ 0) :
    (msg_sock_hdlr_open_for_send s sig gai snd_ok rcv_ok).sock_struct.result
        ≠ MSH_INVALID_SOCKSTRUCT
      ∧ (msg_sock_hdlr_open_for_send s sig gai snd_ok rcv_ok).trace ≠ [] := by
  unfold msg_sock_hdlr_open_for_send
  simp only [h, if_false]
  cases gai with
  | none => simp
  | some servinfo =>
    simp only
    obtain ⟨t, ht⟩ := connect_loop_trace servinfo
      ((if (!sig) = true then [io_sigaction] else []) ++ [io_getaddrinfo s.host s.port])
    rcases hb : connect_loop servinfo
      ((if (!sig) = true then [io_sigaction] else []) ++ [io_getaddrinfo s.host s.port])
      with ⟨ex, tr⟩
    rw [hb] at ht
    simp only at ht
    cases ex with
    | none => simp [ht]
    | some sd =>
      simp only
      by_cases hl : 0 < s.cto <;> cases rcv_ok <;> cases snd_ok <;> simp [hl, ht]

/-- With `valid` equal to 0 or no connected descriptor, `msg_sock_hdlr_send`
returns at once. -/
theorem send_rejected (s : sock_struct_t) (message_buf : List Nat) (awaitAck : Bool)
    (errno0 : errno_t) (msg_send : send_outcome) (ack_read : read_outcome)
    (h : s.valid = 0 ∨ s.csd = 0) :
    msg_sock_hdlr_send s message_buf awaitAck errno0 msg_send ack_read =
      { sock_struct := { s with valid := 0, result := MSH_INVALID_SOCKSTRUCT }, trace := [],
        errno := errno0 } := by
  unfold msg_sock_hdlr_send
  rw [send_validate_eq]
  by_cases hc : s.csd = 0
  · simp [hc]
  · have h0 : s.valid = 0 := h.resolve_right hc
    simp [hc, h0]

/-- With `valid` different from 0 and a connected descriptor,
`msg_sock_hdlr_send` makes the `send` call first and ends with another result
than `MSH_INVALID_SOCKSTRUCT`. -/
theorem send_accepted (s : sock_struct_t) (message_buf : List Nat) (awaitAck : Bool)
    (errno0 : errno_t) (msg_send : send_outcome) (ack_read : read_outcome)
    (hvalid : s.valid ≠ 0) (hcsd : s.csd ≠ 0) :
    (msg_sock_hdlr_send s message_buf awaitAck errno0 msg_send ack_read).sock_struct.result
        ≠ MSH_INVALID_SOCKSTRUCT
      ∧ ∃ t, (msg_sock_hdlr_send s message_buf awaitAck errno0 msg_send ack_read).trace =
          io_send s.csd (message_buf.take (strlen message_buf + 1)) :: t
        ∧ ∀ ev ∈ t, ∀ sd data, ev ≠ io_send sd data := by
  unfold msg_sock_hdlr_send check_for_broken_socket sock_struct_close_client
  rw [send_validate_eq]
  simp only [hcsd, hvalid, if_false]
  split_ifs <;> simp

/-- The length of a text without null byte that is followed by a null byte. -/
theorem strlen_terminated (m junk : List Nat) (hm : ∀ b ∈ m, b ≠ 0) :
    strlen (m ++ 0 :: junk) = m.length := by
  unfold strlen
  induction m with
  | nil => simp
  | cons b m ih =>
    have hb : b ≠ 0 := hm b (List.mem_cons_self _ _)
    have ih1 := ih (fun c hc => hm c (List.mem_cons_of_mem _ hc))
    simp [List.takeWhile_cons, hb, ih1]

set_option maxRecDepth 100000 in
/-- The turn of the read loop that `recv_wrapped_accept` ends with, evaluated
from `message_size = 2147482624` with capacity 2147482625 (the content of the
destination plays no part in the capacity check and is left empty here): the
chunk of 1023 bytes without trailing null is not rejected, and the loop is left
by the short read with `message_size = 2147483647`. -/
theorem recv_loop_wrapped_turn :
    (recv_loop 4 2147482625 [read_outcome.data (List.replicate 1023 65)] [] 2147482624
        MSH_MESSAGE_RECVD (other 0) []).map
      (fun l => (l.return_code, l.exit_at, l.message_size, l.bytes_read)) =
    some (MSH_MESSAGE_RECVD, loop_exit.short_read, 2147483647, 1023) := by
  decide

/-- C2. Exact-multiple framing terminates: a payload without null byte whose
length plus one is `k * 1024` with `k >= 1`, delivered as `k` full 1024-byte
reads (`chunks`) into a destination of capacity at least `k * 1024`, the
capacity being a C `int`, makes
`msg_sock_hdlr_recv` stop after exactly `k` reads, whatever reads would follow
(`rest` is left unread); the loop is left by the trailing-null check, not by the
short-read check, and the result is `MSH_MESSAGE_RECVD`. -/
theorem recv_exact_multiple_framing (s : sock_struct_t) (message_buf : List Nat)
    (message_buf_len : Int) (errno0 : errno_t) (k : Nat) (payload : List Nat)
    (chunks : List (List Nat)) (rest : List read_outcome) (ack_send : send_outcome)
    (hlsd : s.lsd ≠ 0) (hcsd : s.csd ≠ 0) (hlto : 0 ≤ s.lto) (hcto : 0 ≤ s.cto)
    (hvalid : s.valid ≠ 0)
    (hk : 1 ≤ k)
    (hpayload : ∀ b ∈ payload, b ≠ 0)
    (hlen : payload.length + 1 = k * rd_buf_size)
    (hchunks : chunks.flatten = payload ++ [0])
    (hfull : ∀ c ∈ chunks, c.length = rd_buf_size)
    (hcap : (k * rd_buf_size : Nat) ≤ message_buf_len)
    (hbuf : message_buf_len ≤ message_buf.length)
    (hint : message_buf_len ≤ 2147483647) :
    msg_sock_hdlr_recv s message_buf message_buf_len false errno0
        (chunks.map read_outcome.data ++ rest) ack_send =
      some { sock_struct := { s with result := MSH_MESSAGE_RECVD },
             message_buf := payload ++ [0] ++ message_buf.drop (k * rd_buf_size),
             message_size := ((k * rd_buf_size : Nat) : Int),
             trace := List.replicate k (io_read s.csd rd_buf_size),
             unread := rest,
             exit_at := some loop_exit.trailing_null } := by
  -- the chunks are k in number
  have hsum : ∀ (l : List (List Nat)), (∀ c ∈ l, c.length = rd_buf_size) →
      l.flatten.length = rd_buf_size * l.length := by
    intro l hl
    induction l with
    | nil => simp
    | cons c l ih =>
      simp only [List.flatten_cons, List.length_append, List.length_cons,
        hl c (List.mem_cons_self _ _), ih (fun d hd => hl d (List.mem_cons_of_mem _ hd))]
      ring
  have hcount : chunks.length = k := by
    have h1 := hsum chunks hfull
    rw [hchunks, List.length_append, List.length_singleton, hlen] at h1
    have : 0 < rd_buf_size := by simp [rd_buf_size]
    nlinarith [Nat.eq_of_mul_eq_mul_left this (by linarith : rd_buf_size * k = rd_buf_size * chunks.length)]
  have hne : chunks ≠ [] := by
    intro h0
    rw [h0] at hcount
    simp at hcount
    omega
  obtain ⟨pre, c, rfl⟩ : ∃ pre c, chunks = pre ++ [c] :=
    ⟨chunks.dropLast, chunks.getLast hne, (List.dropLast_append_getLast hne).symm⟩
  have hclen : c.length = rd_buf_size := hfull c (by simp)
  have hcne : c ≠ [] := by
    intro h0
    rw [h0] at hclen
    simp [rd_buf_size] at hclen
  -- split the last chunk into its body and its last byte
  obtain ⟨body, x, rfl⟩ : ∃ body x, c = body ++ [x] :=
    ⟨c.dropLast, c.getLast hcne, (List.dropLast_append_getLast hcne).symm⟩
  have hsplit : pre.flatten ++ body ++ [x] = payload ++ [0] := by
    rw [← hchunks]; simp
  have hinj := List.append_inj' hsplit rfl
  have hx : x = 0 := by simpa using hinj.2
  have hbody : pre.flatten ++ body = payload := hinj.1
  subst hx
  have hpre : ∀ d ∈ pre, d.length = rd_buf_size ∧ d.getD (rd_buf_size - 1) 0 ≠ 0 := by
    intro d hd
    have hdl : d.length = rd_buf_size := hfull d (by simp [hd])
    refine ⟨hdl, ?_⟩
    have hlt : rd_buf_size - 1 < d.length := by rw [hdl]; simp [rd_buf_size]
    rw [List.getD_eq_getElem _ _ hlt]
    apply hpayload
    rw [← hbody]
    apply List.mem_append_left
    exact List.mem_flatten.mpr ⟨d, hd, List.getElem_mem _⟩
  have hlast : (body ++ [0]).getD ((body ++ [0]).length - 1) 0 = 0 := by
    simp [List.getD_eq_getElem?_getD]
  have hpl : pre.length + 1 = k := by simpa using hcount
  have hflat := full_chunks_length pre hpre
  have key := recv_chunks_accepted s message_buf message_buf_len errno0 pre (body ++ [0]) rest ack_send
    hlsd hcsd hlto hcto hvalid hbuf hint hpre hcne (Or.inr hlast)
    (by
      rw [if_pos hlast, hclen]
      have : (rd_buf_size : Int) * pre.length + rd_buf_size = ((k * rd_buf_size : Nat) : Int) := by
        rw [← hpl]; push_cast; ring
      omega)
  have htot : (pre ++ [body ++ [0]]).flatten.length = k * rd_buf_size := by
    rw [hchunks, List.length_append, List.length_singleton, hlen]
  rw [List.map_append, List.map_cons, List.map_nil, List.append_assoc, List.singleton_append, key,
    htot, hchunks, hpl, if_neg (by rw [hclen]; exact lt_irrefl _)]

/-- Witness of C2: 2047 payload bytes and the terminator arrive as two full
reads. -/
theorem recv_exact_multiple_framing_witness :
    msg_sock_hdlr_recv sample_receiver (List.replicate 2048 255) 2048 false (other 0)
        ([List.replicate 1024 65, List.replicate 1023 66 ++ [0]].map read_outcome.data
          ++ [read_outcome.closed]) (send_outcome.sent 0) =
      some { sock_struct := { sample_receiver with result := MSH_MESSAGE_RECVD },
             message_buf := (List.replicate 1024 65 ++ List.replicate 1023 66) ++ [0]
               ++ (List.replicate 2048 255).drop (2 * rd_buf_size),
             message_size := ((2 * rd_buf_size : Nat) : Int),
             trace := List.replicate 2 (io_read sample_receiver.csd rd_buf_size),
             unread := [read_outcome.closed],
             exit_at := some loop_exit.trailing_null } :=
  recv_exact_multiple_framing sample_receiver (List.replicate 2048 255) 2048 (other 0) 2
    (List.replicate 1024 65 ++ List.replicate 1023 66)
    [List.replicate 1024 65, List.replicate 1023 66 ++ [0]] [read_outcome.closed]
    (send_outcome.sent 0)
    (by decide) (by decide) (by decide) (by decide) (by decide) (by decide)
    (fun b hb => by
      rcases List.mem_append.mp hb with h | h <;> (rw [List.eq_of_mem_replicate h]; decide))
    (by rw [List.length_append, List.length_replicate, List.length_replicate]; rfl)
    (by rw [List.flatten_cons, List.flatten_cons, List.flatten_nil, List.append_nil,
      List.append_assoc])
    (fun c hc => by
      rcases List.mem_cons.mp hc with h | h
      · rw [h, List.length_replicate]; rfl
      · rw [List.mem_singleton.mp h, List.length_append, List.length_replicate]; rfl)
    (by decide)
    (by rw [List.length_replicate]; decide)
    (by decide)

/-- C3. Reassembly correctness of `msg_sock_hdlr_recv`: when the first reads
return full 1024-byte chunks that do not end in a null byte (`pre`), the next
read returns a chunk `c` that is shorter than 1024 bytes or ends in a null byte,
and the capacity check passes (the check of `c` implies the checks of the
earlier chunks) for a capacity that is a C `int`, then with no ACK requested the function performs exactly one
read per chunk, leaves `rest` unread, sets result `MSH_MESSAGE_RECVD`, and
`message_buf` starts with the concatenation of the chunks in order, the bytes
behind it being unchanged. -/
theorem recv_reassembly (s : sock_struct_t) (message_buf : List Nat)
    (message_buf_len : Int) (errno0 : errno_t) (pre : List (List Nat)) (c : List Nat)
    (rest : List read_outcome) (ack_send : send_outcome)
    (hlsd : s.lsd ≠ 0) (hcsd : s.csd ≠ 0) (hlto : 0 ≤ s.lto) (hcto : 0 ≤ s.cto)
    (hvalid : s.valid ≠ 0)
    (hbuf : message_buf_len ≤ message_buf.length)
    (hint : message_buf_len ≤ 2147483647)
    (hpre : ∀ d ∈ pre, d.length = rd_buf_size ∧ d.getD (rd_buf_size - 1) 0 ≠ 0)
    (hc : c ≠ [])
    (hend : c.length < rd_buf_size ∨ c.getD (c.length - 1) 0 = 0)
    (hfit : (rd_buf_size : Int) * pre.length + c.length
      + (if c.getD (c.length - 1) 0 = 0 then 0 else 1) ≤ message_buf_len) :
    msg_sock_hdlr_recv s message_buf message_buf_len false errno0
        (pre.map read_outcome.data ++ read_outcome.data c :: rest) ack_send =
      some { sock_struct := { s with result := MSH_MESSAGE_RECVD },
             message_buf := (pre ++ [c]).flatten
               ++ message_buf.drop (pre ++ [c]).flatten.length,
             message_size := ((pre ++ [c]).flatten.length : Int),
             trace := List.replicate (pre.length + 1) (io_read s.csd rd_buf_size),
             unread := rest,
             exit_at := some (if c.length < rd_buf_size then loop_exit.short_read
                              else loop_exit.trailing_null) } :=
  recv_chunks_accepted s message_buf message_buf_len errno0 pre c rest ack_send hlsd hcsd hlto
    hcto hvalid hbuf hint hpre hc hend hfit

/-- Witness of C3: the three bytes of "hi" and its terminator arrive in one short
read. -/
theorem recv_reassembly_witness :
    msg_sock_hdlr_recv sample_receiver (List.replicate 8 255) 8 false (other 0)
        [read_outcome.data [104, 105, 0]] (send_outcome.sent 0) =
      some { sock_struct := { sample_receiver with result := MSH_MESSAGE_RECVD },
             message_buf := [104, 105, 0, 255, 255, 255, 255, 255],
             message_size := 3,
             trace := [io_read 4 1024],
             unread := [],
             exit_at := some loop_exit.short_read } :=
  recv_reassembly sample_receiver (List.replicate 8 255) 8 (other 0) [] [104, 105, 0] []
    (send_outcome.sent 0)
    (by decide) (by decide) (by decide) (by decide) (by decide) (by decide) (by decide)
    (by simp) (by simp) (by decide) (by decide)

set_option maxRecDepth 100000 in
/-- C4. Zero-length read after a copied chunk: with capacity 2048, a first read
of 1024 bytes without trailing null and a second read returning 0, `errno` not
being `EPIPE`, `msg_sock_hdlr_recv` leaves the loop at the non-positive read and
reports `MSH_MESSAGE_RECVD`, not `MSH_MESSAGE_NOT_RECVD`. -/
theorem recv_zero_read_after_full_chunk :
    (msg_sock_hdlr_recv sample_receiver (List.replicate 2048 255) 2048 false (other 0)
        [read_outcome.data (List.replicate 1024 65), read_outcome.closed]
        (send_outcome.sent 0)).map (fun r => (r.sock_struct.result, r.exit_at, r.unread)) =
      some (MSH_MESSAGE_RECVD, some loop_exit.read_not_positive, []) := by
  decide

/-- C5. Cooperative shutdown of the accept loop: on a session that passes
validation with `lto > 0` and whose `listen` call succeeds, when the accepts
before (`pre`) all failed, each either with another error than would-block or
with would-block while the shutdown flag was zero, and the next accept `a` fails
with would-block while the flag is non-zero, `msg_sock_hdlr_listen` returns at
`a` with result `MSH_CONNECT_TIMEOUT` and `csd` unchanged.  The failures of
`pre` never end the loop: each is followed by another accept, and on `pre`
alone the function does not return but asks for one more accept. -/
theorem listen_cooperative_shutdown (s : sock_struct_t) (errno0 : errno_t)
    (pre : List accept_step) (a : accept_step) (rest : List accept_step)
    (snd_ok rcv_ok : Bool)
    (hlsd : s.lsd ≠ 0) (hlto : 0 < s.lto) (hcto : 0 ≤ s.cto) (hvalid : s.valid ≠ 0)
    (hpre : ∀ p ∈ pre, ∃ e, p.outcome = accept_outcome.failed e ∧
      ((e = EWOULDBLOCK ∨ e = EAGAIN) → p.shutdownFlag = 0))
    (ha : a.outcome = accept_outcome.failed EWOULDBLOCK ∨
      a.outcome = accept_outcome.failed EAGAIN)
    (hflag : a.shutdownFlag ≠ 0) :
    msg_sock_hdlr_listen s errno0 true (pre ++ a :: rest) snd_ok rcv_ok =
        some { sock_struct := { s with result := MSH_CONNECT_TIMEOUT },
               trace := io_listen s.lsd BACKLOG
                 :: List.replicate (pre.length + 1) (io_accept s.lsd),
               unused := rest }
      ∧ msg_sock_hdlr_listen s errno0 true pre snd_ok rcv_ok = none := by
  have hv : msg_sock_hdlr_listen s errno0 true = fun accepts snd_ok rcv_ok =>
      listen_loop s true (decide (s.cto > 0)) snd_ok rcv_ok accepts errno0
        [io_listen s.lsd BACKLOG] := by
    funext accepts snd_ok rcv_ok
    simp [msg_sock_hdlr_listen, listen_validate_eq, hlsd, not_lt.mpr hlto.le, not_lt.mpr hcto,
      hvalid, hlto]
  rw [hv]
  constructor
  · obtain ⟨errno1, h1⟩ := listen_loop_skips s (decide (s.cto > 0)) snd_ok rcv_ok pre
      (a :: rest) errno0 [io_listen s.lsd BACKLOG] hpre
    simp only [h1]
    rw [listen_loop]
    rcases ha with h | h
    · simp [h, accept_return, accept_errno, hflag, List.replicate_succ']
    · simp [h, accept_return, accept_errno, hflag, List.replicate_succ']
  · obtain ⟨errno1, h1⟩ := listen_loop_skips s (decide (s.cto > 0)) snd_ok rcv_ok pre
      [] errno0 [io_listen s.lsd BACKLOG] hpre
    simp only [List.append_nil] at h1
    simp only [h1]
    rw [listen_loop]

/-- Witness of C5: three failed accepts that do not end the loop, then a time-out
with the shutdown flag set. -/
theorem listen_cooperative_shutdown_witness :
    msg_sock_hdlr_listen sample_listener (other 0) true
        ([⟨accept_outcome.failed EAGAIN, 0⟩, ⟨accept_outcome.failed (other 24), 1⟩,
          ⟨accept_outcome.failed EWOULDBLOCK, 0⟩]
          ++ ⟨accept_outcome.failed EAGAIN, 1⟩ :: [⟨accept_outcome.connected 7, 1⟩])
        true true =
        some { sock_struct := { sample_listener with result := MSH_CONNECT_TIMEOUT },
               trace := io_listen sample_listener.lsd BACKLOG
                 :: List.replicate (3 + 1) (io_accept sample_listener.lsd),
               unused := [⟨accept_outcome.connected 7, 1⟩] }
      ∧ msg_sock_hdlr_listen sample_listener (other 0) true
        [⟨accept_outcome.failed EAGAIN, 0⟩, ⟨accept_outcome.failed (other 24), 1⟩,
          ⟨accept_outcome.failed EWOULDBLOCK, 0⟩] true true = none :=
  listen_cooperative_shutdown sample_listener (other 0)
    [⟨accept_outcome.failed EAGAIN, 0⟩, ⟨accept_outcome.failed (other 24), 1⟩,
      ⟨accept_outcome.failed EWOULDBLOCK, 0⟩]
    ⟨accept_outcome.failed EAGAIN, 1⟩ [⟨accept_outcome.connected 7, 1⟩] true true
    (by decide) (by decide) (by decide) (by decide)
    (by
      intro p hp
      simp only [List.mem_cons, List.mem_singleton, List.not_mem_nil, or_false] at hp
      rcases hp with rfl | rfl | rfl
      · exact ⟨EAGAIN, rfl, fun _ => rfl⟩
      · exact ⟨other 24, rfl, by decide⟩
      · exact ⟨EWOULDBLOCK, rfl, fun _ => rfl⟩)
    (by decide) (by decide)

/-- C6. Broken-pipe recovery on the sender: on a valid session with a connected
descriptor, when the write of `msg_sock_hdlr_send` fails with `EPIPE` the call
returns with the descriptor closed and absent (`csd = 0`) and result
`MSH_CLIENT_DISCONNECTED`; every later `msg_sock_hdlr_send` on that session,
whatever its arguments, returns `MSH_INVALID_SOCKSTRUCT` without making a
call. -/
theorem send_broken_pipe_recovery (s : sock_struct_t) (message_buf : List Nat)
    (awaitAck : Bool) (errno0 : errno_t) (ack_read : read_outcome)
    (later : List (List Nat × Bool × errno_t × send_outcome × read_outcome))
    (hcsd : s.csd ≠ 0) (hvalid : s.valid ≠ 0) :
    msg_sock_hdlr_send s message_buf awaitAck errno0 (send_outcome.failed EPIPE) ack_read =
        { sock_struct := { s with csd := 0, result := MSH_CLIENT_DISCONNECTED },
          trace := [io_send s.csd (message_buf.take (strlen message_buf + 1)),
                    io_close s.csd],
          errno := EPIPE }
      ∧ ∀ r ∈ send_calls (msg_sock_hdlr_send s message_buf awaitAck errno0
            (send_outcome.failed EPIPE) ack_read).sock_struct later,
          r.sock_struct.result = MSH_INVALID_SOCKSTRUCT ∧ r.trace = [] := by
  have h1 : msg_sock_hdlr_send s message_buf awaitAck errno0 (send_outcome.failed EPIPE)
      ack_read =
        { sock_struct := { s with csd := 0, result := MSH_CLIENT_DISCONNECTED },
          trace := [io_send s.csd (message_buf.take (strlen message_buf + 1)),
                    io_close s.csd],
          errno := EPIPE } := by
    simp [msg_sock_hdlr_send, send_validate_eq, hcsd, hvalid, send_return, send_errno, check_for_broken_socket,
      sock_struct_close_client]
  refine ⟨h1, ?_⟩
  rw [h1]
  exact send_calls_without_csd later _ rfl

/-- Witness of C6: a send of "ping" that meets a broken pipe, followed by two
more sends. -/
theorem send_broken_pipe_recovery_witness :
    msg_sock_hdlr_send sample_sender [112, 105, 110, 103, 0] true (other 0)
        (send_outcome.failed EPIPE) read_outcome.closed =
        { sock_struct := { sample_sender with csd := 0, result := MSH_CLIENT_DISCONNECTED },
          trace := [io_send sample_sender.csd
                      ([112, 105, 110, 103, 0].take (strlen [112, 105, 110, 103, 0] + 1)),
                    io_close sample_sender.csd],
          errno := EPIPE }
      ∧ ∀ r ∈ send_calls (msg_sock_hdlr_send sample_sender [112, 105, 110, 103, 0] true
            (other 0) (send_outcome.failed EPIPE) read_outcome.closed).sock_struct
            [([112, 111, 110, 103, 0], false, EPIPE, send_outcome.sent 5, read_outcome.closed),
             ([104, 105, 0], true, EPIPE, send_outcome.sent 3, read_outcome.data [58])],
          r.sock_struct.result = MSH_INVALID_SOCKSTRUCT ∧ r.trace = [] :=
  send_broken_pipe_recovery sample_sender [112, 105, 110, 103, 0] true (other 0)
    read_outcome.closed
    [([112, 111, 110, 103, 0], false, EPIPE, send_outcome.sent 5, read_outcome.closed),
     ([104, 105, 0], true, EPIPE, send_outcome.sent 3, read_outcome.data [58])]
    (by decide) (by decide)

/-- C7, counterexample.  A connected sender session with `cto = -1`,
`lto = 86401` and `valid = 1` is not rejected by `msg_sock_hdlr_send`: the
message is written and the result is `MSH_MESSAGE_SENT`.  A listener session
with `lto = 86401` is not rejected by `msg_sock_hdlr_listen`: it calls `listen`
and `accept` and ends with `MSH_CLIENT_CONNECTED`. -/
theorem validation_gating_counterexample :
    (sample_bad_timeouts.cto < 0 ∧ 86400 < sample_bad_timeouts.lto
      ∧ sample_bad_timeouts.valid = 1 ∧ sample_bad_timeouts.csd = 5)
    ∧ msg_sock_hdlr_send sample_bad_timeouts [104, 105, 0] false (other 0)
        (send_outcome.sent 3) read_outcome.closed =
      { sock_struct := { sample_bad_timeouts with result := MSH_MESSAGE_SENT },
        trace := [io_send 5 [104, 105, 0]], errno := other 0 }
    ∧ msg_sock_hdlr_listen { sample_listener with lto := 86401 } (other 0) true
        [⟨accept_outcome.connected 7, 0⟩] true true =
      some { sock_struct := { sample_listener with lto := 86401, csd := 7,
                                                   result := MSH_CLIENT_CONNECTED },
             trace := [io_listen 3 2, io_accept 3], unused := [] } := by
  decide

/-- C7, amended.  For every session whose `lto` or `cto` is negative or greater
than 86400, `msg_sock_hdlr_open_for_recv` returns at once with
`MSH_INVALID_SOCKSTRUCT` and no I/O; `msg_sock_hdlr_listen` and
`msg_sock_hdlr_recv` do so when `lto` or `cto` is negative;
`msg_sock_hdlr_open_for_send` and `msg_sock_hdlr_send` do not look at the
timeouts: they end with `MSH_INVALID_SOCKSTRUCT` exactly when `valid` is 0 at
entry (for send: or `csd` is 0), and then without I/O. -/
theorem validation_gating_amended (s : sock_struct_t) (sig : Bool)
    (gai_recv : Option (List bind_candidate)) (gai_send : Option (List connect_candidate))
    (rcv_ok snd_ok listen_ok sendAck awaitAck : Bool) (errno0 : errno_t)
    (accepts : List accept_step) (message_buf : List Nat) (message_buf_len : Int)
    (reads : List read_outcome) (ack_send msg_send : send_outcome) (msg : List Nat)
    (ack_read : read_outcome)
    (h : s.lto < 0 ∨ s.cto < 0 ∨ 86400 < s.lto ∨ 86400 < s.cto) :
    msg_sock_hdlr_open_for_recv s sig gai_recv rcv_ok snd_ok =
        { sock_struct := { s with valid := 0, result := MSH_INVALID_SOCKSTRUCT },
          SIG_IGN_SET := sig, trace := [] }
    ∧ ((s.lto < 0 ∨ s.cto < 0) →
        msg_sock_hdlr_listen s errno0 listen_ok accepts snd_ok rcv_ok =
          some { sock_struct := { s with valid := 0, result := MSH_INVALID_SOCKSTRUCT },
                 trace := [], unused := accepts }
        ∧ msg_sock_hdlr_recv s message_buf message_buf_len sendAck errno0 reads ack_send =
          some { sock_struct := { s with valid := 0, result := MSH_INVALID_SOCKSTRUCT },
                 message_buf := message_buf, message_size := 0, trace := [], unread := reads,
                 exit_at := none })
    ∧ ((msg_sock_hdlr_open_for_send s sig gai_send snd_ok rcv_ok).sock_struct.result
          = MSH_INVALID_SOCKSTRUCT ↔ s.valid = 0)
    ∧ (s.valid = 0 → (msg_sock_hdlr_open_for_send s sig gai_send snd_ok rcv_ok).trace = [])
    ∧ ((msg_sock_hdlr_send s msg awaitAck errno0 msg_send ack_read).sock_struct.result
          = MSH_INVALID_SOCKSTRUCT ↔ (s.valid = 0 ∨ s.csd = 0))
    ∧ ((s.valid = 0 ∨ s.csd = 0) →
        (msg_sock_hdlr_send s msg awaitAck errno0 msg_send ack_read).trace = []) := by
  refine ⟨?_, ?_, ?_, ?_, ?_, ?_⟩
  · exact open_for_recv_rejected s sig gai_recv rcv_ok snd_ok (Or.inr (Or.inr h))
  · intro hneg
    exact ⟨listen_rejected s errno0 listen_ok accepts snd_ok rcv_ok (Or.inr (Or.inr hneg)),
      recv_rejected s message_buf message_buf_len sendAck errno0 reads ack_send
        (Or.inr (Or.inr (Or.inr hneg)))⟩
  · constructor
    · intro hres
      by_contra hv
      exact (open_for_send_accepted s sig gai_send snd_ok rcv_ok hv).1 hres
    · intro hv
      rw [open_for_send_rejected s sig gai_send snd_ok rcv_ok hv]
  · intro hv
    rw [open_for_send_rejected s sig gai_send snd_ok rcv_ok hv]
  · constructor
    · intro hres
      by_contra hv
      simp only [not_or] at hv
      exact (send_accepted s msg awaitAck errno0 msg_send ack_read hv.1 hv.2).1 hres
    · intro hv
      rw [send_rejected s msg awaitAck errno0 msg_send ack_read hv]
  · intro hv
    rw [send_rejected s msg awaitAck errno0 msg_send ack_read hv]

/-- Witness of C7 amended: the session with `lto = 86401` and `cto = -1` is
rejected by listener acquisition, by the accept loop and by receive. -/
theorem validation_gating_amended_witness :
    msg_sock_hdlr_open_for_recv sample_bad_timeouts false none true true =
        { sock_struct := { sample_bad_timeouts with valid := 0,
                                                    result := MSH_INVALID_SOCKSTRUCT },
          SIG_IGN_SET := false, trace := [] }
    ∧ msg_sock_hdlr_listen sample_bad_timeouts (other 0) true [] true true =
          some { sock_struct := { sample_bad_timeouts with valid := 0,
                                                           result := MSH_INVALID_SOCKSTRUCT },
                 trace := [], unused := [] }
    ∧ msg_sock_hdlr_recv sample_bad_timeouts [] 0 false (other 0) [] (send_outcome.sent 0) =
          some { sock_struct := { sample_bad_timeouts with valid := 0,
                                                           result := MSH_INVALID_SOCKSTRUCT },
                 message_buf := [], message_size := 0, trace := [], unread := [],
                 exit_at := none } :=
  have key := validation_gating_amended sample_bad_timeouts false none none true true true false
    false (other 0) [] [] 0 [] (send_outcome.sent 0) (send_outcome.sent 0) []
    read_outcome.closed (by decide)
  ⟨key.1, key.2.1 (by decide)⟩

/-- C8. Listener-acquisition guard: `msg_sock_hdlr_open_for_recv` ends with
`MSH_INVALID_SOCKSTRUCT` if and only if at entry `lsd != 0` or `csd != 0` or
`lto < 0` or `cto < 0` or `lto > 86400` or `cto > 86400`; in that case it makes
no call and changes no field other than `valid` (set to 0) and `result`; and
the incoming value of `valid` has no influence on what the function does. -/
theorem open_for_recv_guard (s : sock_struct_t) (sig : Bool)
    (gai : Option (List bind_candidate)) (rcv_ok snd_ok : Bool) :
    ((msg_sock_hdlr_open_for_recv s sig gai rcv_ok snd_ok).sock_struct.result
        = MSH_INVALID_SOCKSTRUCT ↔
      (s.lsd ≠ 0 ∨ s.csd ≠ 0 ∨ s.lto < 0 ∨ s.cto < 0 ∨ 86400 < s.lto ∨ 86400 < s.cto))
    ∧ ((s.lsd ≠ 0 ∨ s.csd ≠ 0 ∨ s.lto < 0 ∨ s.cto < 0 ∨ 86400 < s.lto ∨ 86400 < s.cto) →
      msg_sock_hdlr_open_for_recv s sig gai rcv_ok snd_ok =
        { sock_struct := { s with valid := 0, result := MSH_INVALID_SOCKSTRUCT },
          SIG_IGN_SET := sig, trace := [] })
    ∧ ∀ v : Int, msg_sock_hdlr_open_for_recv { s with valid := v } sig gai rcv_ok snd_ok =
        msg_sock_hdlr_open_for_recv s sig gai rcv_ok snd_ok := by
  refine ⟨⟨?_, ?_⟩, ?_, ?_⟩
  · intro hres
    by_contra hg
    exact (open_for_recv_accepted s sig gai rcv_ok snd_ok hg).1 hres
  · intro hg
    rw [open_for_recv_rejected s sig gai rcv_ok snd_ok hg]
  · exact open_for_recv_rejected s sig gai rcv_ok snd_ok
  · intro v
    unfold msg_sock_hdlr_open_for_recv
    rw [open_for_recv_validate_eq, open_for_recv_validate_eq]

/-- Witness of C8: a session that already holds descriptors is rejected. -/
theorem open_for_recv_guard_witness :
    msg_sock_hdlr_open_for_recv sample_receiver true none true true =
      { sock_struct := { sample_receiver with valid := 0, result := MSH_INVALID_SOCKSTRUCT },
        SIG_IGN_SET := true, trace := [] } :=
  (open_for_recv_guard sample_receiver true none true true).2.1 (by decide)

/-- C9, counterexample.  Two receiver sessions with the same descriptors and
timeouts (`lsd = 3`, `csd = 4`, `lto = 1`, `cto = 0`) that differ only in
`valid`: `msg_sock_hdlr_recv` accepts the one with `valid = 1` (it reads and
reports `MSH_MESSAGE_RECVD`) and rejects the one with `valid = 0` with
`MSH_INVALID_SOCKSTRUCT`, without reading. -/
theorem valid_recomputed_counterexample :
    (sample_receiver_cleared.lsd = sample_receiver.lsd
      ∧ sample_receiver_cleared.csd = sample_receiver.csd
      ∧ sample_receiver_cleared.lto = sample_receiver.lto
      ∧ sample_receiver_cleared.cto = sample_receiver.cto)
    ∧ (msg_sock_hdlr_recv sample_receiver (List.replicate 8 255) 8 false (other 0)
          [read_outcome.data [104, 105, 0]] (send_outcome.sent 0)).map
        (fun r => (r.sock_struct.result, r.trace)) =
      some (MSH_MESSAGE_RECVD, [io_read 4 1024])
    ∧ (msg_sock_hdlr_recv sample_receiver_cleared (List.replicate 8 255) 8 false (other 0)
          [read_outcome.data [104, 105, 0]] (send_outcome.sent 0)).map
        (fun r => (r.sock_struct.result, r.trace)) =
      some (MSH_INVALID_SOCKSTRUCT, []) := by
  decide

/-- C9, amended.  `msg_sock_hdlr_listen`, `msg_sock_hdlr_recv`,
`msg_sock_hdlr_open_for_send` and `msg_sock_hdlr_send` do not recompute `valid`,
they only clear it: a call is rejected with `MSH_INVALID_SOCKSTRUCT` exactly
when `valid` is 0 at entry or a check of that call fails (listen: `lsd = 0`,
`lto < 0` or `cto < 0`; recv: the same or `csd = 0`; open_for_send: no check;
send: `csd = 0`). -/
theorem valid_cleared_never_restored (s : sock_struct_t) (sig : Bool)
    (gai_send : Option (List connect_candidate))
    (rcv_ok snd_ok listen_ok sendAck awaitAck : Bool) (errno0 : errno_t)
    (accepts : List accept_step) (message_buf : List Nat) (message_buf_len : Int)
    (reads : List read_outcome) (ack_send msg_send : send_outcome) (msg : List Nat)
    (ack_read : read_outcome) :
    ((∃ r, msg_sock_hdlr_listen s errno0 listen_ok accepts snd_ok rcv_ok = some r
          ∧ r.sock_struct.result = MSH_INVALID_SOCKSTRUCT) ↔
        (s.valid = 0 ∨ s.lsd = 0 ∨ s.lto < 0 ∨ s.cto < 0))
    ∧ ((∃ r, msg_sock_hdlr_recv s message_buf message_buf_len sendAck errno0 reads ack_send
            = some r ∧ r.sock_struct.result = MSH_INVALID_SOCKSTRUCT) ↔
        (s.valid = 0 ∨ s.lsd = 0 ∨ s.csd = 0 ∨ s.lto < 0 ∨ s.cto < 0))
    ∧ ((msg_sock_hdlr_open_for_send s sig gai_send snd_ok rcv_ok).sock_struct.result
          = MSH_INVALID_SOCKSTRUCT ↔ s.valid = 0)
    ∧ ((msg_sock_hdlr_send s msg awaitAck errno0 msg_send ack_read).sock_struct.result
          = MSH_INVALID_SOCKSTRUCT ↔ (s.valid = 0 ∨ s.csd = 0)) := by
  refine ⟨⟨?_, ?_⟩, ⟨?_, ?_⟩, ⟨?_, ?_⟩, ⟨?_, ?_⟩⟩
  · rintro ⟨r, hr, hres⟩
    by_contra hc
    exact (listen_accepted s errno0 listen_ok accepts snd_ok rcv_ok hc r hr).1 hres
  · intro hc
    exact ⟨_, listen_rejected s errno0 listen_ok accepts snd_ok rcv_ok hc, rfl⟩
  · rintro ⟨r, hr, hres⟩
    by_contra hc
    exact (recv_accepted s message_buf message_buf_len sendAck errno0 reads ack_send hc r hr).1
      hres
  · intro hc
    exact ⟨_, recv_rejected s message_buf message_buf_len sendAck errno0 reads ack_send hc, rfl⟩
  · intro hres
    by_contra hv
    exact (open_for_send_accepted s sig gai_send snd_ok rcv_ok hv).1 hres
  · intro hv
    rw [open_for_send_rejected s sig gai_send snd_ok rcv_ok hv]
  · intro hres
    by_contra hv
    simp only [not_or] at hv
    exact (send_accepted s msg awaitAck errno0 msg_send ack_read hv.1 hv.2).1 hres
  · intro hv
    rw [send_rejected s msg awaitAck errno0 msg_send ack_read hv]

/-- C10. Send wire contract: on a valid session with a connected descriptor, for
a message `m` without null byte (the memory holds `m`, its null terminator and
anything behind), `msg_sock_hdlr_send` issues exactly one write, first of all
its calls, whose data is the bytes of `m` followed by one null byte; when that
write succeeds and no ACK is awaited the result is `MSH_MESSAGE_SENT`; when it
fails with another error than `EPIPE` the result is `MSH_MESSAGE_NOT_SENT` and
the session, `csd` included, is otherwise unchanged. -/
theorem send_wire_contract (s : sock_struct_t) (m junk : List Nat) (awaitAck : Bool)
    (errno0 : errno_t) (msg_send : send_outcome) (ack_read : read_outcome)
    (hcsd : s.csd ≠ 0) (hvalid : s.valid ≠ 0) (hm : ∀ b ∈ m, b ≠ 0) :
    (∃ t, (msg_sock_hdlr_send s (m ++ 0 :: junk) awaitAck errno0 msg_send ack_read).trace =
        io_send s.csd (m ++ [0]) :: t ∧ ∀ ev ∈ t, ∀ sd data, ev ≠ io_send sd data)
    ∧ (∀ count, msg_send = send_outcome.sent count →
        msg_sock_hdlr_send s (m ++ 0 :: junk) false errno0 msg_send ack_read =
          { sock_struct := { s with result := MSH_MESSAGE_SENT },
            trace := [io_send s.csd (m ++ [0])], errno := errno0 })
    ∧ (∀ e, msg_send = send_outcome.failed e → e ≠ EPIPE →
        msg_sock_hdlr_send s (m ++ 0 :: junk) awaitAck errno0 msg_send ack_read =
          { sock_struct := { s with result := MSH_MESSAGE_NOT_SENT },
            trace := [io_send s.csd (m ++ [0])], errno := e }) := by
  have hdata : (m ++ 0 :: junk).take (strlen (m ++ 0 :: junk) + 1) = m ++ [0] := by
    rw [strlen_terminated m junk hm, List.take_append_eq_append_take]
    simp
  refine ⟨?_, ?_, ?_⟩
  · obtain ⟨_, t, ht, hno⟩ := send_accepted s (m ++ 0 :: junk) awaitAck errno0 msg_send
      ack_read hvalid hcsd
    rw [hdata] at ht
    exact ⟨t, ht, hno⟩
  · intro count hs
    subst hs
    have hc : ¬ ((count : Int) = -1) := by omega
    simp [msg_sock_hdlr_send, send_validate_eq, hcsd, hvalid, send_return, send_errno, hdata, hc]
  · intro e hs he
    subst hs
    simp [msg_sock_hdlr_send, send_validate_eq, hcsd, hvalid, send_return, send_errno, hdata,
      check_for_broken_socket, he]

/-- Witness of C10: the message "ping" sent from memory that goes on behind the
terminator. -/
theorem send_wire_contract_witness :
    (∃ t, (msg_sock_hdlr_send sample_sender ([112, 105, 110, 103] ++ 0 :: [33, 33]) true
          (other 0) (send_outcome.sent 5) (read_outcome.data [58, 65])).trace =
        io_send sample_sender.csd ([112, 105, 110, 103] ++ [0]) :: t
        ∧ ∀ ev ∈ t, ∀ sd data, ev ≠ io_send sd data)
    ∧ msg_sock_hdlr_send sample_sender ([112, 105, 110, 103] ++ 0 :: [33, 33]) false (other 0)
          (send_outcome.sent 5) (read_outcome.data [58, 65]) =
        { sock_struct := { sample_sender with result := MSH_MESSAGE_SENT },
          trace := [io_send sample_sender.csd ([112, 105, 110, 103] ++ [0])],
          errno := other 0 } :=
  have key := send_wire_contract sample_sender [112, 105, 110, 103] [33, 33] true (other 0)
    (send_outcome.sent 5) (read_outcome.data [58, 65]) (by decide) (by decide) (by decide)
  ⟨key.1, key.2.1 5 rfl⟩

/-! ## Lemmas on what the read loop leaves and on the ACK -/

/-- What the read loop leaves, told by the chunks it accepted, for a capacity of
at most `INT_MAX - 1023` and reads of at most 1024 bytes, where no sum the loop
forms leaves the range of an `int`: the chunks are the first reads of the
script, each passed the capacity check at the offset the chunks before it add up
to, the destination holds them one behind the other and is otherwise unchanged,
and `message_size` is their total size, negated when the loop is left by the
overflow branch.  The size `n` the loop starts with is a multiple of 1024 and, if
not zero, was accepted with room for a terminator. -/
theorem recv_loop_accepted (sd : Int) (cap : Int) (reads : List read_outcome)
    (hmax : cap ≤ 2147482624) :
    ∀ (buf : List Nat) (n : Nat) (rc : msh_result) (e : errno_t) (tr : List io_event)
      (l : recv_loop_result),
      recv_loop sd cap reads buf n rc e tr = some l → cap ≤ buf.length →
      (∀ c, read_outcome.data c ∈ reads → c.length ≤ rd_buf_size) →
      n % rd_buf_size = 0 → (n = 0 ∨ (n : Int) + 1 ≤ cap) →
      ∃ chunks : List (List Nat),
        reads.take chunks.length = chunks.map read_outcome.data
        ∧ (∀ pre c post, chunks = pre ++ c :: post →
            c ≠ [] ∧ (n : Int) + pre.flatten.length + c.length
              + (if c.getD (c.length - 1) 0 = 0 then 0 else 1) ≤ cap)
        ∧ l.message_buf = memcpy buf n chunks.flatten
        ∧ l.message_size = (if l.exit_at = loop_exit.overflow
            then -((n + chunks.flatten.length : Nat) : Int)
            else ((n + chunks.flatten.length : Nat) : Int))
        ∧ (l.exit_at = loop_exit.short_read ∨ l.exit_at = loop_exit.trailing_null →
            chunks ≠ [] ∧ reads = chunks.map read_outcome.data ++ l.unread) := by
  induction reads with
  | nil => intro buf n rc e tr l h; simp [recv_loop] at h
  | cons r reads ih =>
    intro buf n rc e tr l h hbuf hread hmod hacc
    have hread1 : ∀ c, read_outcome.data c ∈ reads → c.length ≤ rd_buf_size :=
      fun c hc => hread c (List.mem_cons_of_mem _ hc)
    by_cases hpos : 0 < read_return r
    · obtain ⟨c, rfl, hc⟩ := read_return_pos r hpos
      have hlen : c.length ≤ rd_buf_size := hread c (List.mem_cons_self _ _)
      have hrd : rd_buf_size = 1024 := rfl
      have hb : (0 : Int) ≤ (if c.getD (c.length - 1) 0 = 0 then 0 else 1)
          ∧ (if c.getD (c.length - 1) 0 = 0 then (0 : Int) else 1) ≤ 1 := by
        split <;> simp
      have hrep : (n : Int) + c.length + (if c.getD (c.length - 1) 0 = 0 then 0 else 1)
          ≤ 2147483647 := by
        rw [hrd] at hlen hmod
        omega
      rw [recv_loop_cons_data sd cap c reads buf n rc e tr hc hrep] at h
      have hst : ∀ (pre : List (List Nat)) (c1 : List Nat) (post : List (List Nat)),
          [c] = pre ++ c1 :: post → pre = [] ∧ c1 = c := by
        intro pre c1 post h1
        cases pre with
        | nil => simp at h1; exact ⟨rfl, h1.1.symm⟩
        | cons p pre => simp at h1
      generalize hadd : (if c.getD (c.length - 1) 0 = 0 then (0 : Int) else 1) = add at h hb
      split_ifs at h with h1 h2 h3
      · cases h
        refine ⟨[], by simp, ?_, by simp [memcpy], by simp, by simp⟩
        intro pre c1 post hd
        simp at hd
      · cases h
        refine ⟨[c], by simp, ?_, by simp, by simp, by simp⟩
        intro pre c1 post hd
        obtain ⟨rfl, rfl⟩ := hst pre c1 post hd
        rw [hadd]
        exact ⟨hc, by simpa using not_lt.mp h1⟩
      · cases h
        refine ⟨[c], by simp, ?_, by simp, by simp, by simp⟩
        intro pre c1 post hd
        obtain ⟨rfl, rfl⟩ := hst pre c1 post hd
        rw [hadd]
        exact ⟨hc, by simpa using not_lt.mp h1⟩
      · have hfit := not_lt.mp h1
        have hn : n + c.length ≤ buf.length := by omega
        have hlen1 : (memcpy buf n c).length = buf.length := memcpy_length buf c n hn
        have hfull : c.length = rd_buf_size := by omega
        have hlast : ¬ c.getD (c.length - 1) 0 = 0 := by
          rw [← memcpy_getD_last buf c n (by omega) hc 0]
          exact h3
        have hone : add = 1 := by rw [← hadd, if_neg hlast]
        obtain ⟨chunks, htake, hinv, hmb, hms, hex⟩ :=
          ih (memcpy buf n c) (n + c.length) MSH_MESSAGE_RECVD e _ l h (by rw [hlen1]; exact hbuf)
            hread1 (by rw [hfull, Nat.add_mod, hmod]; simp)
            (Or.inr (by push_cast; omega))
        refine ⟨c :: chunks, by simp [htake], ?_, ?_, ?_, ?_⟩
        · intro pre c1 post hd
          cases pre with
          | nil =>
            simp only [List.nil_append, List.cons.injEq] at hd
            obtain ⟨rfl, _⟩ := hd
            rw [hadd]
            exact ⟨hc, by simpa using hfit⟩
          | cons p pre =>
            simp only [List.cons_append, List.cons.injEq] at hd
            obtain ⟨rfl, hd⟩ := hd
            obtain ⟨h4, h5⟩ := hinv pre c1 post hd
            refine ⟨h4, ?_⟩
            simp only [List.flatten_cons, List.length_append]
            push_cast at h5 ⊢
            omega
        · rw [hmb, memcpy_memcpy buf c chunks.flatten n (by omega), List.flatten_cons]
        · rw [hms]
          simp only [List.flatten_cons, List.length_append, Nat.add_assoc]
        · intro hx
          obtain ⟨_, h7⟩ := hex hx
          exact ⟨List.cons_ne_nil _ _, by simp [h7]⟩
    · rw [recv_loop_cons_stop sd cap r reads buf n rc e tr hpos] at h
      cases h
      refine ⟨[], by simp, ?_, by simp [memcpy], by simp, by simp⟩
      intro pre c1 post hd
      simp at hd

/-- The read that ended the loop: the script is the reads before it, that read
and the reads left unread; the loop made one `read` call for each read it
consumed and no other call; `bytes_read` and `errno` are the ones of that read;
and the branch by which the loop is left tells the return code. -/
theorem recv_loop_last_read (sd : Int) (cap : Int) (reads : List read_outcome) :
    ∀ (buf : List Nat) (m : Int) (rc : msh_result) (e : errno_t) (tr : List io_event)
      (l : recv_loop_result),
      recv_loop sd cap reads buf m rc e tr = some l → rc ≠ MSH_MESSAGE_RECVD_OVERFLOW →
      ∃ (pre : List read_outcome) (last : read_outcome),
        reads = pre ++ last :: l.unread
        ∧ l.trace = tr ++ List.replicate (pre.length + 1) (io_read sd rd_buf_size)
        ∧ l.bytes_read = read_return last
        ∧ (∀ x, last = read_outcome.failed x → l.errno = x)
        ∧ (l.exit_at = loop_exit.read_not_positive ↔ ¬ 0 < l.bytes_read)
        ∧ (l.exit_at = loop_exit.overflow ↔ l.return_code = MSH_MESSAGE_RECVD_OVERFLOW)
        ∧ (l.exit_at = loop_exit.short_read ∨ l.exit_at = loop_exit.trailing_null →
            l.return_code = MSH_MESSAGE_RECVD)
        ∧ (l.return_code = rc ∨ l.return_code = MSH_MESSAGE_RECVD
            ∨ l.return_code = MSH_MESSAGE_RECVD_OVERFLOW) := by
  induction reads with
  | nil => intro buf m rc e tr l h; simp [recv_loop] at h
  | cons r reads ih =>
    intro buf m rc e tr l h hrc
    by_cases hpos : 0 < read_return r
    · obtain ⟨c, rfl, hc⟩ := read_return_pos r hpos
      rw [recv_loop] at h
      simp only [read_data, read_errno] at h
      rw [if_pos hpos] at h
      generalize (if c.getD (read_return (read_outcome.data c) - 1).toNat 0 = 0
        then (0 : Int) else 1) = add at h
      split_ifs at h with h1 h2 h3
      · cases h
        exact ⟨[], read_outcome.data c, rfl, by simp, rfl, by simp, by simp [hpos], by simp,
          by simp, by simp⟩
      · cases h
        exact ⟨[], read_outcome.data c, rfl, by simp, rfl, by simp, by simp [hpos], by simp,
          by simp, by simp⟩
      · cases h
        exact ⟨[], read_outcome.data c, rfl, by simp, rfl, by simp, by simp [hpos], by simp,
          by simp, by simp⟩
      · obtain ⟨pre, last, h4, h5, h6, h7, h8, h9, h10, h11⟩ := ih _ _ _ _ _ l h (by decide)
        refine ⟨read_outcome.data c :: pre, last, by simp [h4],
          by simp [h5, List.replicate_succ], h6, h7, h8, h9, h10, ?_⟩
        rcases h11 with h12 | h12 | h12 <;> simp [h12]
    · rw [recv_loop_cons_stop sd cap r reads buf m rc e tr hpos] at h
      cases h
      refine ⟨[], r, rfl, by simp, rfl, ?_, by simp [hpos], by simp [hrc], by simp, by simp⟩
      intro x hx
      subst hx
      rfl

/-- On a session that passes validation, `msg_sock_hdlr_recv` is the read loop
followed by the part behind it. -/
theorem recv_valid_eq (s : sock_struct_t) (message_buf : List Nat) (message_buf_len : Int)
    (sendAck : Bool) (errno0 : errno_t) (reads : List read_outcome) (ack_send : send_outcome)
    (h : ¬ (s.valid = 0 ∨ s.lsd = 0 ∨ s.csd = 0 ∨ s.lto < 0 ∨ s.cto < 0)) :
    msg_sock_hdlr_recv s message_buf message_buf_len sendAck errno0 reads ack_send =
      (recv_loop s.csd message_buf_len reads message_buf 0 MSH_MESSAGE_NOT_RECVD errno0 []).map
        (recv_finish s sendAck ack_send) := by
  have hv : ¬ (s.lsd = 0 ∨ s.csd = 0 ∨ s.lto < 0 ∨ s.cto < 0) := fun hc => h (Or.inr hc)
  have h0 : ¬ s.valid = 0 := fun hc => h (Or.inl hc)
  have hs : recv_validate s = s := by
    rw [recv_validate_eq, if_neg hv]
  unfold msg_sock_hdlr_recv
  rw [hs]
  simp only [h0, if_false]
  cases recv_loop s.csd message_buf_len reads message_buf 0 MSH_MESSAGE_NOT_RECVD errno0 [] <;>
    rfl

/-- Every decimal digit character is a non-null byte. -/
theorem digitChar_ne_zero (n : Nat) : (Nat.digitChar (n % 10)).toNat ≠ 0 := by
  have h : ∀ d, d < 10 → (Nat.digitChar d).toNat ≠ 0 := by decide
  exact h _ (Nat.mod_lt _ (by decide))

/-- The digits `Nat.toDigitsCore` writes in base ten are non-null bytes. -/
theorem toDigitsCore_ne_zero (fuel : Nat) :
    ∀ (n : Nat) (ds : List Char), (∀ c ∈ ds, c.toNat ≠ 0) →
      ∀ c ∈ Nat.toDigitsCore 10 fuel n ds, c.toNat ≠ 0 := by
  induction fuel with
  | zero => intro n ds hds c hc; exact hds c (by simpa [Nat.toDigitsCore] using hc)
  | succ fuel ih =>
    intro n ds hds c hc
    have hds1 : ∀ c ∈ Nat.digitChar (n % 10) :: ds, c.toNat ≠ 0 := by
      intro d hd
      rcases List.mem_cons.mp hd with h | h
      · rw [h]; exact digitChar_ne_zero n
      · exact hds d h
    rw [Nat.toDigitsCore] at hc
    split_ifs at hc
    · exact hds1 c hc
    · exact ih _ _ hds1 c hc

/-- The text `sprintf` writes for `%d` holds no null byte. -/
theorem sprintf_d_ne_zero (n : Int) : ∀ b ∈ sprintf_d n, b ≠ 0 := by
  have hd : ∀ c ∈ Nat.toDigits 10 n.natAbs, c.toNat ≠ 0 :=
    toDigitsCore_ne_zero _ _ [] (by simp)
  intro b hb
  unfold sprintf_d at hb
  split_ifs at hb
  · rcases List.mem_cons.mp hb with h | h
    · rw [h]; decide
    · obtain ⟨c, hc, rfl⟩ := List.mem_map.mp h
      exact hd c hc
  · obtain ⟨c, hc, rfl⟩ := List.mem_map.mp hb
    exact hd c hc

/-- The text `sprintf` writes for a 32-bit `%d` has at most eleven bytes. -/
theorem sprintf_d_length (n : Int) (hlo : -2147483648 ≤ n) (hhi : n ≤ 2147483647) :
    (sprintf_d n).length ≤ 11 := by
  have hlt : n.natAbs < 10 ^ 10 := by omega
  have hd : (Nat.toDigits 10 n.natAbs).length ≤ 10 :=
    Nat.toDigitsCore_length 10 (by decide) _ _ 10 hlt (by decide)
  unfold sprintf_d
  split_ifs <;> simp <;> omega

/-- The byte of a decimal digit character. -/
theorem digitChar_toNat (d : Nat) (h : d < 10) : (Nat.digitChar d).toNat = 48 + d := by
  have hall : ∀ x, x < 10 → (Nat.digitChar x).toNat = 48 + x := by decide
  exact hall d h

/-- What `Nat.toDigitsCore` writes in base ten, given enough fuel: in front of
the digits it was handed, the decimal digits of `n`, the most significant first
and without leading zero. -/
theorem toDigitsCore_decimal (fuel : Nat) :
    ∀ (n : Nat) (ds : List Char), n < fuel →
      ∃ p : List Char, Nat.toDigitsCore 10 fuel n ds = p ++ ds
        ∧ p ≠ []
        ∧ (∀ d ∈ p.map Char.toNat, 48 ≤ d ∧ d ≤ 57)
        ∧ decimal_value (p.map Char.toNat) = n
        ∧ ((p.map Char.toNat).head? = some 48 → p.map Char.toNat = [48]) := by
  induction fuel with
  | zero => intro n ds h; omega
  | succ fuel ih =>
    intro n ds h
    rw [Nat.toDigitsCore]
    have hd := digitChar_toNat (n % 10) (Nat.mod_lt _ (by decide))
    by_cases h0 : n / 10 = 0
    · simp only [h0, if_true]
      have hn : n % 10 = n := by omega
      refine ⟨[Nat.digitChar (n % 10)], rfl, by simp, ?_, ?_, ?_⟩
      · intro d hmem
        simp only [List.map_cons, List.map_nil, List.mem_singleton] at hmem
        omega
      · simp only [decimal_value, List.map_cons, List.map_nil, List.foldl_cons, List.foldl_nil, hd]
        omega
      · intro hh
        simp only [List.map_cons, List.map_nil, List.head?_cons, Option.some.injEq] at hh
        simp only [List.map_cons, List.map_nil, hh]
    · simp only [h0, if_false]
      obtain ⟨p, hp, hne, hdig, hval, hhead⟩ := ih (n / 10) (Nat.digitChar (n % 10) :: ds)
        (by omega)
      refine ⟨p ++ [Nat.digitChar (n % 10)], by rw [hp]; simp, by simp, ?_, ?_, ?_⟩
      · intro d hmem
        simp only [List.map_append, List.map_cons, List.map_nil, List.mem_append,
          List.mem_singleton] at hmem
        rcases hmem with hm | hm
        · exact hdig d hm
        · omega
      · unfold decimal_value at hval ⊢
        simp only [List.map_append, List.map_cons, List.map_nil, List.foldl_append,
          List.foldl_cons, List.foldl_nil, hval, hd]
        omega
      · intro hh
        exfalso
        have hne1 : p.map Char.toNat ≠ [] := by simpa using hne
        rw [List.map_append, List.head?_append_of_ne_nil _ hne1] at hh
        have h48 := hhead hh
        rw [h48] at hval
        simp [decimal_value] at hval
        omega

/-- The text `sprintf` writes for `%d` is the decimal rendering: a minus sign
for a negative number, then the decimal digits of the absolute value, the most
significant first and without leading zero. -/
theorem sprintf_d_decimal (n : Int) :
    ∃ digits : List Nat,
      sprintf_d n = (if n < 0 then [45] else []) ++ digits
      ∧ digits ≠ []
      ∧ (∀ d ∈ digits, 48 ≤ d ∧ d ≤ 57)
      ∧ decimal_value digits = n.natAbs
      ∧ (digits.head? = some 48 → digits = [48]) := by
  obtain ⟨p, hp, hne, hdig, hval, hhead⟩ := toDigitsCore_decimal (n.natAbs + 1) n.natAbs []
    (Nat.lt_succ_self _)
  rw [List.append_nil] at hp
  refine ⟨p.map Char.toNat, ?_, by simpa using hne, hdig, hval, hhead⟩
  unfold sprintf_d Nat.toDigits
  rw [hp]
  split_ifs <;> simp

/-- The bytes of the ACK handed to `send`: the text before the first null byte
of `ack_response` is the format text followed by the decimal count. -/
theorem ack_response_take (n : Int) :
    (ack_response n).take (strlen (ack_response n)) = ack_text ++ sprintf_d n := by
  have hm : ∀ b ∈ ack_text ++ sprintf_d n, b ≠ 0 := by
    intro b hb
    rcases List.mem_append.mp hb with h | h
    · have hall : ∀ x ∈ ack_text, x ≠ 0 := by decide
      exact hall b h
    · exact sprintf_d_ne_zero n b h
  have hform : ack_response n = (ack_text ++ sprintf_d n)
      ++ 0 :: (List.replicate ACK_MSG_BUF_LEN 0).drop (ack_text ++ sprintf_d n ++ [0]).length := by
    rw [ack_response, memcpy_zero]
    simp
  rw [hform, strlen_terminated _ _ hm, List.take_left']
  rfl

/-- Behind a loop left after a positive read, with an ACK requested and the
`send` of the ACK successful: the ACK is the one call added and the return code
of the loop is stored. -/
theorem recv_finish_ack_sent (s4 : sock_struct_t) (count : Nat) (l : recv_loop_result)
    (hpos : 0 < l.bytes_read) :
    recv_finish s4 true (send_outcome.sent count) l =
      { sock_struct := { s4 with result := l.return_code },
        message_buf := l.message_buf, message_size := l.message_size,
        trace := l.trace ++ [io_send s4.csd (ack_text ++ sprintf_d l.message_size)],
        unread := l.unread, exit_at := some l.exit_at } := by
  have h0 : ¬ l.bytes_read = 0 := by omega
  have h1 : ¬ l.bytes_read < 0 := by omega
  have hc : ¬ ((count : Int) = -1) := by omega
  simp [recv_finish, h0, h1, hpos, send_return, hc, ack_response_take]

/-- Behind a loop left after a positive read, with an ACK requested and the
`send` of the ACK failing: the ACK and the calls of the disruption check are
added, the session is the one the disruption check leaves, and the result
stored last is `MSH_ERROR_ACK_SEND_FAIL`. -/
theorem recv_finish_ack_failed (s4 : sock_struct_t) (e : errno_t) (l : recv_loop_result)
    (hpos : 0 < l.bytes_read) :
    recv_finish s4 true (send_outcome.failed e) l =
      { sock_struct := { (check_for_broken_socket s4 e).2.1 with
                          result := MSH_ERROR_ACK_SEND_FAIL },
        message_buf := l.message_buf, message_size := l.message_size,
        trace := l.trace ++ io_send s4.csd (ack_text ++ sprintf_d l.message_size)
          :: (check_for_broken_socket s4 e).2.2,
        unread := l.unread, exit_at := some l.exit_at } := by
  have h0 : ¬ l.bytes_read = 0 := by omega
  have h1 : ¬ l.bytes_read < 0 := by omega
  simp [recv_finish, h0, h1, hpos, send_return, send_errno, ack_response_take]

/-- Behind a loop left after a read that returned no byte, or with no ACK
requested, no ACK is written: the only calls added are those of the disruption
check after a zero-length read. -/
theorem recv_finish_no_ack (s4 : sock_struct_t) (sendAck : Bool) (ack_send : send_outcome)
    (l : recv_loop_result) (h : ¬ 0 < l.bytes_read ∨ sendAck = false) :
    recv_finish s4 sendAck ack_send l =
      { sock_struct :=
          { (if l.bytes_read = 0 then check_for_broken_socket s4 l.errno
             else (false, s4, [])).2.1 with
            result :=
              if l.bytes_read < 0 ∧ 0 < s4.cto ∧ (l.errno = EWOULDBLOCK ∨ l.errno = EAGAIN)
              then MSH_MESSAGE_RECV_TIMEOUT
              else if l.bytes_read = 0 ∧ l.errno = EPIPE then MSH_CLIENT_DISCONNECTED
              else l.return_code },
        message_buf := l.message_buf, message_size := l.message_size,
        trace := l.trace ++ (if l.bytes_read = 0 then check_for_broken_socket s4 l.errno
                             else (false, s4, [])).2.2,
        unread := l.unread, exit_at := some l.exit_at } := by
  have hcond : (decide (l.bytes_read > 0) && sendAck) = false := by
    rcases h with h | h
    · simp [h]
    · simp [h]
  unfold recv_finish
  simp only [hcond, Bool.false_eq_true, if_false]
  unfold check_for_broken_socket sock_struct_close_client
  by_cases h0 : l.bytes_read = 0
  · by_cases hp : l.errno = EPIPE
    · simp [h0, hp]
    · simp [h0, hp]
  · by_cases h1 : l.bytes_read < 0
    · by_cases ht : 0 < s4.cto ∧ (l.errno = EWOULDBLOCK ∨ l.errno = EAGAIN)
      · simp [h0, h1, ht]
      · simp [h0, h1, ht]
    · simp [h0, h1]

/-- A result of `msg_sock_hdlr_recv` on a session that passes validation comes
from a result of the read loop. -/
theorem recv_valid_some (s : sock_struct_t) (message_buf : List Nat) (message_buf_len : Int)
    (sendAck : Bool) (errno0 : errno_t) (reads : List read_outcome) (ack_send : send_outcome)
    (r : recv_result)
    (h : ¬ (s.valid = 0 ∨ s.lsd = 0 ∨ s.csd = 0 ∨ s.lto < 0 ∨ s.cto < 0))
    (hr : msg_sock_hdlr_recv s message_buf message_buf_len sendAck errno0 reads ack_send
      = some r) :
    ∃ l, recv_loop s.csd message_buf_len reads message_buf 0 MSH_MESSAGE_NOT_RECVD errno0 []
        = some l ∧ recv_finish s sendAck ack_send l = r := by
  rw [recv_valid_eq s message_buf message_buf_len sendAck errno0 reads ack_send h] at hr
  exact Option.map_eq_some'.mp hr

/-- The part behind the read loop keeps the buffer, the size, the unread reads
and the exit of the loop. -/
theorem recv_finish_keeps (s4 : sock_struct_t) (sendAck : Bool) (ack_send : send_outcome)
    (l : recv_loop_result) :
    (recv_finish s4 sendAck ack_send l).message_buf = l.message_buf
    ∧ (recv_finish s4 sendAck ack_send l).message_size = l.message_size
    ∧ (recv_finish s4 sendAck ack_send l).unread = l.unread
    ∧ (recv_finish s4 sendAck ack_send l).exit_at = some l.exit_at := by
  unfold recv_finish
  simp only
  split_ifs <;> simp

/-- The calls of the read loop are reads: the loop writes nothing to the
connection. -/
theorem replicate_read_no_send (k : Nat) (sd : Int) (sd1 : Int) (data : List Nat) :
    io_send sd1 data ∉ List.replicate k (io_read sd rd_buf_size) := by
  intro h
  have := List.eq_of_mem_replicate h
  cases this

/-- The disruption check writes nothing to the connection. -/
theorem check_no_send (s : sock_struct_t) (e : errno_t) (sd1 : Int) (data : List Nat) :
    io_send sd1 data ∉ (check_for_broken_socket s e).2.2 := by
  unfold check_for_broken_socket sock_struct_close_client
  split_ifs <;> simp

/-- The sign of `message_size` when the read loop is left by the overflow
branch, for reads of at most 1024 bytes: the size negated there had not wrapped
below zero, so the size left is not positive.  The size `m` the loop starts with
is an `int` that is not negative and, if not zero, within the capacity, unless
the capacity is within 1024 of `INT_MAX`. -/
theorem recv_loop_overflow_sign (sd : Int) (cap : Int) (reads : List read_outcome) :
    ∀ (buf : List Nat) (m : Int) (rc : msh_result) (e : errno_t) (tr : List io_event)
      (l : recv_loop_result),
      recv_loop sd cap reads buf m rc e tr = some l →
      (∀ c, read_outcome.data c ∈ reads → c.length ≤ rd_buf_size) →
      -2147483648 ≤ m → m ≤ 2147483647 →
      ((0 ≤ m ∧ (m = 0 ∨ m ≤ cap)) ∨ 2147482623 ≤ cap) →
      l.exit_at = loop_exit.overflow → l.message_size ≤ 0 := by
  induction reads with
  | nil => intro buf m rc e tr l h; simp [recv_loop] at h
  | cons r reads ih =>
    intro buf m rc e tr l h hread hlo hhi hinv hx
    have hread1 : ∀ c, read_outcome.data c ∈ reads → c.length ≤ rd_buf_size :=
      fun c hc => hread c (List.mem_cons_of_mem _ hc)
    by_cases hpos : 0 < read_return r
    · obtain ⟨c, rfl, hc⟩ := read_return_pos r hpos
      have hlen : c.length ≤ rd_buf_size := hread c (List.mem_cons_self _ _)
      have hrd : rd_buf_size = 1024 := rfl
      rw [hrd] at hlen
      have hp : 0 < c.length := List.length_pos.mpr hc
      have hb : (0 : Int) ≤ (if c.getD (c.length - 1) 0 = 0 then 0 else 1)
          ∧ (if c.getD (c.length - 1) 0 = 0 then (0 : Int) else 1) ≤ 1 := by
        split <;> simp
      rw [recv_loop_cons_int sd cap c reads buf m rc e tr hc] at h
      generalize (if c.getD (c.length - 1) 0 = 0 then (0 : Int) else 1) = add at h hb
      split_ifs at h with h1 h2 h3
      · cases h
        simp only
        unfold int32 at h1 ⊢
        omega
      · cases h
        cases hx
      · cases h
        cases hx
      · refine ih _ _ _ _ _ l h hread1 ?_ ?_ ?_ hx
        · unfold int32
          omega
        · unfold int32
          omega
        · unfold int32 at h1 ⊢
          omega
    · rw [recv_loop_cons_stop sd cap r reads buf m rc e tr hpos] at h
      cases h
      cases hx

/-- A read returns a negative count exactly when it failed. -/
theorem read_return_neg (r : read_outcome) :
    read_return r < 0 ↔ ∃ e, r = read_outcome.failed e := by
  cases r <;> simp [read_return]

/-- What `msg_sock_hdlr_recv` leaves in the destination, told by the chunks it
accepted, for any session, a capacity of at most `INT_MAX - 1023` and any script
of reads of at most 1024 bytes. -/
theorem recv_accepted_chunks (s : sock_struct_t) (message_buf : List Nat)
    (message_buf_len : Int) (sendAck : Bool) (errno0 : errno_t) (reads : List read_outcome)
    (ack_send : send_outcome) (r : recv_result)
    (hbuf : message_buf_len ≤ message_buf.length)
    (hmax : message_buf_len ≤ 2147482624)
    (hread : ∀ c, read_outcome.data c ∈ reads → c.length ≤ rd_buf_size)
    (hr : msg_sock_hdlr_recv s message_buf message_buf_len sendAck errno0 reads ack_send
      = some r) :
    ∃ chunks : List (List Nat),
      reads.take chunks.length = chunks.map read_outcome.data
      ∧ (∀ pre c post, chunks = pre ++ c :: post →
          c ≠ [] ∧ (pre.flatten.length : Int) + c.length
            + (if c.getD (c.length - 1) 0 = 0 then 0 else 1) ≤ message_buf_len)
      ∧ r.message_buf = chunks.flatten ++ message_buf.drop chunks.flatten.length
      ∧ r.message_size = (if r.exit_at = some loop_exit.overflow
          then -(chunks.flatten.length : Int) else (chunks.flatten.length : Int)) := by
  by_cases hv : s.valid = 0 ∨ s.lsd = 0 ∨ s.csd = 0 ∨ s.lto < 0 ∨ s.cto < 0
  · rw [recv_rejected s message_buf message_buf_len sendAck errno0 reads ack_send hv] at hr
    cases hr
    refine ⟨[], by simp, ?_, by simp, by simp⟩
    intro pre c post hd
    simp at hd
  · obtain ⟨l, hl, hfin⟩ := recv_valid_some s message_buf message_buf_len sendAck errno0 reads
      ack_send r hv hr
    obtain ⟨hk1, hk2, hk3, hk4⟩ := recv_finish_keeps s sendAck ack_send l
    rw [hfin] at hk1 hk2 hk3 hk4
    obtain ⟨chunks, htake, hinv, hmb, hms, _⟩ := recv_loop_accepted s.csd message_buf_len reads
      hmax message_buf 0 _ errno0 [] l hl hbuf hread (Nat.zero_mod _) (Or.inl rfl)
    refine ⟨chunks, htake, ?_, ?_, ?_⟩
    · intro pre c post hd
      obtain ⟨h1, h2⟩ := hinv pre c post hd
      exact ⟨h1, by simpa using h2⟩
    · rw [hk1, hmb, memcpy_zero]
    · rw [hk2, hk4, hms]
      simp

/-! ## The claims on the ACK, the time-out and the destination buffer -/

set_option maxRecDepth 100000 in
/-- C11, counterexample.  With capacity 2048 and `sendAck` true, a first read of
1024 bytes without trailing null is copied, which sets `return_code` to
`MSH_MESSAGE_RECVD`, and a second read returns 0: the loop is left with
`return_code = MSH_MESSAGE_RECVD` and `bytes_read = 0`, the result is
`MSH_MESSAGE_RECVD` before the ACK step and at the return, and the calls made
are the two reads: no ACK is written. -/
theorem recv_no_ack_after_zero_read :
    (recv_loop 4 2048 [read_outcome.data (List.replicate 1024 65), read_outcome.closed]
        (List.replicate 2048 255) 0 MSH_MESSAGE_NOT_RECVD (other 0) []).map
      (fun l => (l.return_code, l.bytes_read)) = some (MSH_MESSAGE_RECVD, 0)
    ∧ (msg_sock_hdlr_recv sample_receiver (List.replicate 2048 255) 2048 true (other 0)
        [read_outcome.data (List.replicate 1024 65), read_outcome.closed]
        (send_outcome.sent 20)).map
      (fun r => (r.sock_struct.result, r.exit_at, r.message_size, r.trace)) =
    some (MSH_MESSAGE_RECVD, some loop_exit.read_not_positive, 1024,
      [io_read 4 1024, io_read 4 1024]) := by
  decide

/-- C11, amended.  ACK text: on a session that passes validation, with
`sendAck` true, whenever `msg_sock_hdlr_recv` leaves the read loop by the
short-read or the trailing-null break (so that `return_code` is
`MSH_MESSAGE_RECVD` and `bytes_read` is positive at the ACK step), it writes to
the connected descriptor, right behind its reads, exactly the bytes of
`:ACK:ByteCount:` followed by the decimal rendering of `message_size` (a minus
sign if it is negative, then decimal digits, the most significant first and
without leading zero, whose value is its absolute value), with no trailing null
byte; it makes no other write, and when that write succeeds the result is
`MSH_MESSAGE_RECVD`.  For a capacity of at most `INT_MAX - 1023` and reads of at
most 1024 bytes, `message_size` is the total number of bytes accumulated in
`message_buf`: the reads consumed are the accepted chunks and the destination
starts with them. -/
theorem recv_ack_text (s : sock_struct_t) (message_buf : List Nat) (message_buf_len : Int)
    (errno0 : errno_t) (reads : List read_outcome) (ack_send : send_outcome) (r : recv_result)
    (hlsd : s.lsd ≠ 0) (hcsd : s.csd ≠ 0) (hlto : 0 ≤ s.lto) (hcto : 0 ≤ s.cto)
    (hvalid : s.valid ≠ 0)
    (hr : msg_sock_hdlr_recv s message_buf message_buf_len true errno0 reads ack_send = some r)
    (hdone : r.exit_at = some loop_exit.short_read ∨ r.exit_at = some loop_exit.trailing_null) :
    ∃ (pre : List read_outcome) (last : read_outcome) (digits : List Nat)
      (post : List io_event),
      reads = pre ++ last :: r.unread
      ∧ r.trace = List.replicate (pre.length + 1) (io_read s.csd rd_buf_size)
          ++ io_send s.csd (ack_text ++ (if r.message_size < 0 then [45] else []) ++ digits)
            :: post
      ∧ digits ≠ []
      ∧ (∀ d ∈ digits, 48 ≤ d ∧ d ≤ 57)
      ∧ decimal_value digits = r.message_size.natAbs
      ∧ (digits.head? = some 48 → digits = [48])
      ∧ (∀ ev ∈ post, ∀ sd data, ev ≠ io_send sd data)
      ∧ (∀ count, ack_send = send_outcome.sent count →
          post = [] ∧ r.sock_struct = { s with result := MSH_MESSAGE_RECVD })
      ∧ (message_buf_len ≤ 2147482624 → message_buf_len ≤ message_buf.length →
          (∀ c, read_outcome.data c ∈ reads → c.length ≤ rd_buf_size) →
          ∃ chunks : List (List Nat),
            chunks ≠ []
            ∧ pre ++ [last] = chunks.map read_outcome.data
            ∧ r.message_buf = chunks.flatten ++ message_buf.drop chunks.flatten.length
            ∧ r.message_size = (chunks.flatten.length : Int)) := by
  have hv : ¬ (s.valid = 0 ∨ s.lsd = 0 ∨ s.csd = 0 ∨ s.lto < 0 ∨ s.cto < 0) := by
    simp only [not_or, not_lt]
    exact ⟨hvalid, hlsd, hcsd, hlto, hcto⟩
  obtain ⟨l, hl, hfin⟩ := recv_valid_some s message_buf message_buf_len true errno0 reads
    ack_send r hv hr
  obtain ⟨hk1, hk2, hk3, hk4⟩ := recv_finish_keeps s true ack_send l
  rw [hfin] at hk1 hk2 hk3 hk4
  have hex : l.exit_at = loop_exit.short_read ∨ l.exit_at = loop_exit.trailing_null := by
    rw [hk4] at hdone
    simpa using hdone
  obtain ⟨pre, last, hsplit, htr, _, _, hstop, _, hrc, _⟩ := recv_loop_last_read s.csd
    message_buf_len reads message_buf 0 _ errno0 [] l hl (by decide)
  have hpos : 0 < l.bytes_read := by
    by_contra hnp
    have := hstop.mpr hnp
    rcases hex with h | h <;> rw [h] at this <;> cases this
  have hnov : ¬ l.exit_at = loop_exit.overflow := by
    rcases hex with h | h <;> rw [h] <;> decide
  have hrcv : l.return_code = MSH_MESSAGE_RECVD := hrc hex
  obtain ⟨digits, hdig, hne, hrange, hval, hhead⟩ := sprintf_d_decimal l.message_size
  have htext : ack_text ++ sprintf_d l.message_size
      = ack_text ++ (if l.message_size < 0 then [45] else []) ++ digits := by
    rw [hdig, List.append_assoc]
  have hchunks : message_buf_len ≤ 2147482624 → message_buf_len ≤ message_buf.length →
      (∀ c, read_outcome.data c ∈ reads → c.length ≤ rd_buf_size) →
      ∃ chunks : List (List Nat),
        chunks ≠ []
        ∧ pre ++ [last] = chunks.map read_outcome.data
        ∧ r.message_buf = chunks.flatten ++ message_buf.drop chunks.flatten.length
        ∧ r.message_size = (chunks.flatten.length : Int) := by
    intro hmax hbuf hread
    obtain ⟨chunks, _, _, hmb, hms, hch⟩ := recv_loop_accepted s.csd message_buf_len reads
      hmax message_buf 0 _ errno0 [] l hl hbuf hread (Nat.zero_mod _) (Or.inl rfl)
    obtain ⟨hcne, hreads⟩ := hch hex
    refine ⟨chunks, hcne, ?_, ?_, ?_⟩
    · have hcancel : (pre ++ [last]) ++ l.unread
          = chunks.map read_outcome.data ++ l.unread := by
        rw [← hreads, hsplit]
        simp
      exact List.append_cancel_right hcancel
    · rw [hk1, hmb, memcpy_zero]
    · rw [hk2, hms, if_neg hnov]
      simp
  rw [← hk2] at hval
  cases ack_send with
  | sent count =>
    rw [recv_finish_ack_sent s count l hpos] at hfin
    refine ⟨pre, last, digits, [], by rw [hk3]; exact hsplit, ?_, hne, hrange, hval, hhead,
      by simp, ?_, hchunks⟩
    · rw [hk2, ← hfin]
      simp only [htr, htext, List.nil_append]
    · intro _ _
      refine ⟨rfl, ?_⟩
      rw [← hfin]
      simp only [hrcv]
  | failed e =>
    rw [recv_finish_ack_failed s e l hpos] at hfin
    refine ⟨pre, last, digits, (check_for_broken_socket s e).2.2, by rw [hk3]; exact hsplit, ?_,
      hne, hrange, hval, hhead, ?_, ?_, hchunks⟩
    · rw [hk2, ← hfin]
      simp only [htr, htext, List.nil_append]
    · unfold check_for_broken_socket sock_struct_close_client
      split_ifs <;> simp
    · intro count hc
      cases hc

/-- Witness of C11 amended: after the twelve bytes of "hello world" and its
terminator the ACK is `:ACK:ByteCount:12`, and after the five bytes of "ping"
and its terminator it is `:ACK:ByteCount:5`. -/
theorem recv_ack_text_witness :
    msg_sock_hdlr_recv sample_receiver (List.replicate 16 255) 16 true (other 0)
        [read_outcome.data sample_hello] (send_outcome.sent 17) = some sample_hello_received
    ∧ msg_sock_hdlr_recv sample_receiver (List.replicate 8 255) 8 true (other 0)
        [read_outcome.data sample_ping] (send_outcome.sent 16) = some sample_ping_received
    ∧ ∃ (pre : List read_outcome) (last : read_outcome) (digits : List Nat)
      (post : List io_event),
      [read_outcome.data sample_hello] = pre ++ last :: sample_hello_received.unread
      ∧ sample_hello_received.trace
          = List.replicate (pre.length + 1) (io_read sample_receiver.csd rd_buf_size)
            ++ io_send sample_receiver.csd
                (ack_text ++ (if sample_hello_received.message_size < 0 then [45] else [])
                  ++ digits) :: post
      ∧ digits ≠ []
      ∧ (∀ d ∈ digits, 48 ≤ d ∧ d ≤ 57)
      ∧ decimal_value digits = sample_hello_received.message_size.natAbs
      ∧ (digits.head? = some 48 → digits = [48])
      ∧ (∀ ev ∈ post, ∀ sd data, ev ≠ io_send sd data)
      ∧ (∀ count, send_outcome.sent 17 = send_outcome.sent count →
          post = [] ∧ sample_hello_received.sock_struct
            = { sample_receiver with result := MSH_MESSAGE_RECVD })
      ∧ ((16 : Int) ≤ 2147482624 → (16 : Int) ≤ (List.replicate 16 255).length →
          (∀ c, read_outcome.data c ∈ [read_outcome.data sample_hello] →
            c.length ≤ rd_buf_size) →
          ∃ chunks : List (List Nat),
            chunks ≠ []
            ∧ pre ++ [last] = chunks.map read_outcome.data
            ∧ sample_hello_received.message_buf
                = chunks.flatten ++ (List.replicate 16 255).drop chunks.flatten.length
            ∧ sample_hello_received.message_size = (chunks.flatten.length : Int)) :=
  ⟨by decide, by decide,
   recv_ack_text sample_receiver (List.replicate 16 255) 16 (other 0)
    [read_outcome.data sample_hello] (send_outcome.sent 17) sample_hello_received
    (by decide) (by decide) (by decide) (by decide) (by decide) (by decide) (Or.inl rfl)⟩

/-- C12. ACK write failing with a broken pipe: after "ping" was received with an
ACK requested, a `send` of the ACK that fails with `EPIPE` makes the disruption
check close the connected descriptor (`csd = 0`), but the result
`msg_sock_hdlr_recv` returns with is `MSH_ERROR_ACK_SEND_FAIL`, not
`MSH_CLIENT_DISCONNECTED`: the final store of `return_code` overwrites what the
check had set. -/
theorem recv_ack_send_epipe :
    msg_sock_hdlr_recv sample_receiver (List.replicate 8 255) 8 true (other 0)
        [read_outcome.data sample_ping] (send_outcome.failed EPIPE) =
      some { sock_struct := { sample_receiver with csd := 0,
                                                   result := MSH_ERROR_ACK_SEND_FAIL },
             message_buf := [112, 105, 110, 103, 0, 255, 255, 255],
             message_size := 5,
             trace := [io_read 4 1024,
                       io_send 4 [58, 65, 67, 75, 58, 66, 121, 116, 101, 67, 111, 117, 110,
                                  116, 58, 53],
                       io_close 4],
             unread := [],
             exit_at := some loop_exit.short_read } := by
  decide

set_option maxRecDepth 100000 in
/-- C13, counterexample.  With capacity 1030 and `sendAck` true, a first read of
1024 bytes without trailing null is copied and a second read of 10 bytes is
rejected with `MSH_MESSAGE_RECVD_OVERFLOW`; `bytes_read` is still positive, so
the ACK is written all the same, with the negated size: `:ACK:ByteCount:-1024`. -/
theorem recv_ack_after_overflow :
    (msg_sock_hdlr_recv sample_receiver (List.replicate 1030 255) 1030 true (other 0)
        [read_outcome.data (List.replicate 1024 65),
         read_outcome.data [1, 2, 3, 4, 5, 6, 7, 8, 9, 0]] (send_outcome.sent 20)).map
      (fun r => (r.sock_struct.result, r.exit_at, r.message_size, r.trace)) =
    some (MSH_MESSAGE_RECVD_OVERFLOW, some loop_exit.overflow, -1024,
      [io_read 4 1024, io_read 4 1024,
       io_send 4 [58, 65, 67, 75, 58, 66, 121, 116, 101, 67, 111, 117, 110, 116, 58,
                  45, 49, 48, 50, 52]]) := by
  decide

/-- C13, amended.  On a session that passes validation, with `sendAck` true,
`msg_sock_hdlr_recv` writes an ACK exactly when the read that ended the loop
(`last`) returned a positive count, that is when the loop completed a message
(short read or trailing null) or rejected it by the overflow branch; the ACK
then carries `message_size`, which after an overflow is the negated size (not
positive, the reads returning at most the 1024 bytes asked for).  No ACK is
written when the result is `MSH_MESSAGE_RECV_TIMEOUT`,
`MSH_MESSAGE_NOT_RECVD` or `MSH_CLIENT_DISCONNECTED`, the results of a read that
timed out or of a connection the peer closed. -/
theorem recv_ack_iff_positive_read (s : sock_struct_t) (message_buf : List Nat)
    (message_buf_len : Int) (errno0 : errno_t) (reads : List read_outcome)
    (ack_send : send_outcome) (r : recv_result)
    (hlsd : s.lsd ≠ 0) (hcsd : s.csd ≠ 0) (hlto : 0 ≤ s.lto) (hcto : 0 ≤ s.cto)
    (hvalid : s.valid ≠ 0)
    (hr : msg_sock_hdlr_recv s message_buf message_buf_len true errno0 reads ack_send = some r) :
    ∃ (pre : List read_outcome) (last : read_outcome),
      reads = pre ++ last :: r.unread
      ∧ ((∃ sd data, io_send sd data ∈ r.trace) ↔ 0 < read_return last)
      ∧ (0 < read_return last ↔
          (r.exit_at = some loop_exit.short_read ∨ r.exit_at = some loop_exit.trailing_null
            ∨ r.exit_at = some loop_exit.overflow))
      ∧ (0 < read_return last →
          io_send s.csd (ack_text ++ sprintf_d r.message_size) ∈ r.trace)
      ∧ ((∀ c, read_outcome.data c ∈ reads → c.length ≤ rd_buf_size) →
          r.exit_at = some loop_exit.overflow → r.message_size ≤ 0)
      ∧ (r.sock_struct.result = MSH_MESSAGE_RECV_TIMEOUT
          ∨ r.sock_struct.result = MSH_MESSAGE_NOT_RECVD
          ∨ r.sock_struct.result = MSH_CLIENT_DISCONNECTED →
            ∀ sd data, io_send sd data ∉ r.trace) := by
  have hv : ¬ (s.valid = 0 ∨ s.lsd = 0 ∨ s.csd = 0 ∨ s.lto < 0 ∨ s.cto < 0) := by
    simp only [not_or, not_lt]
    exact ⟨hvalid, hlsd, hcsd, hlto, hcto⟩
  obtain ⟨l, hl, hfin⟩ := recv_valid_some s message_buf message_buf_len true errno0 reads
    ack_send r hv hr
  obtain ⟨hk1, hk2, hk3, hk4⟩ := recv_finish_keeps s true ack_send l
  rw [hfin] at hk1 hk2 hk3 hk4
  obtain ⟨pre, last, hsplit, htr, hbr, _, hstop, hov, hrc, hcode⟩ := recv_loop_last_read s.csd
    message_buf_len reads message_buf 0 _ errno0 [] l hl (by decide)
  have hexit : 0 < l.bytes_read ↔
      (l.exit_at = loop_exit.short_read ∨ l.exit_at = loop_exit.trailing_null
        ∨ l.exit_at = loop_exit.overflow) := by
    constructor
    · intro hp
      have hne : l.exit_at ≠ loop_exit.read_not_positive := fun hx => (hstop.mp hx) hp
      cases hx : l.exit_at <;> simp_all
    · intro hx
      by_contra hnp
      have := hstop.mpr hnp
      rcases hx with h | h | h <;> rw [h] at this <;> cases this
  have hsize : (∀ c, read_outcome.data c ∈ reads → c.length ≤ rd_buf_size) →
      l.exit_at = loop_exit.overflow → l.message_size ≤ 0 := fun hread =>
    recv_loop_overflow_sign s.csd message_buf_len reads message_buf 0 _ errno0 [] l hl hread
      (by norm_num) (by norm_num) (Or.inl ⟨le_refl _, Or.inl rfl⟩)
  have hsome : ∀ x : loop_exit, (some l.exit_at = some x) ↔ l.exit_at = x := by
    intro x
    simp
  rw [hbr] at hexit
  by_cases hpos : 0 < read_return last
  · have hpos1 : 0 < l.bytes_read := by rw [hbr]; exact hpos
    have hack : io_send s.csd (ack_text ++ sprintf_d l.message_size) ∈ r.trace
        ∧ (r.sock_struct.result = l.return_code
          ∨ r.sock_struct.result = MSH_ERROR_ACK_SEND_FAIL) := by
      cases ack_send with
      | sent count =>
        rw [recv_finish_ack_sent s count l hpos1] at hfin
        subst hfin
        exact ⟨by simp, Or.inl rfl⟩
      | failed e =>
        rw [recv_finish_ack_failed s e l hpos1] at hfin
        subst hfin
        exact ⟨by simp, Or.inr rfl⟩
    have hcode1 : l.return_code = MSH_MESSAGE_RECVD
        ∨ l.return_code = MSH_MESSAGE_RECVD_OVERFLOW := by
      rcases hexit.mp hpos with h | h | h
      · exact Or.inl (hrc (Or.inl h))
      · exact Or.inl (hrc (Or.inr h))
      · exact Or.inr (hov.mp h)
    refine ⟨pre, last, by rw [hk3]; exact hsplit, ?_, ?_, ?_, ?_, ?_⟩
    · exact ⟨fun _ => hpos, fun _ => ⟨_, _, hack.1⟩⟩
    · rw [hk4]
      simp only [hsome]
      exact hexit
    · intro _
      rw [hk2]
      exact hack.1
    · rw [hk4, hk2]
      simp only [hsome]
      exact hsize
    · intro hres
      exfalso
      rcases hack.2 with h | h
      · rw [h] at hres
        rcases hcode1 with h1 | h1 <;> rw [h1] at hres <;> simp at hres
      · rw [h] at hres
        simp at hres
  · have hnp : ¬ 0 < l.bytes_read := by rw [hbr]; exact hpos
    have hnosend : ∀ sd data, io_send sd data ∉ r.trace := by
      intro sd data hmem
      rw [recv_finish_no_ack s true ack_send l (Or.inl hnp)] at hfin
      subst hfin
      simp only [htr, List.nil_append] at hmem
      rcases List.mem_append.mp hmem with h | h
      · exact replicate_read_no_send _ _ _ _ h
      · split_ifs at h
        · exact check_no_send _ _ _ _ h
        · simp at h
    refine ⟨pre, last, by rw [hk3]; exact hsplit, ?_, ?_, ?_, ?_, ?_⟩
    · exact ⟨fun ⟨sd, data, hmem⟩ => absurd hmem (hnosend sd data), fun h => absurd h hpos⟩
    · rw [hk4]
      simp only [hsome]
      exact hexit
    · intro h
      exact absurd h hpos
    · rw [hk4, hk2]
      simp only [hsome]
      exact hsize
    · intro _
      exact hnosend

/-- Witness of C13 amended: a chunk of ten bytes rejected for a buffer of five,
with the ACK requested. -/
theorem recv_ack_iff_positive_read_witness :
    msg_sock_hdlr_recv sample_receiver (List.replicate 5 255) 5 true (other 0)
        [read_outcome.data [1, 2, 3, 4, 5, 6, 7, 8, 9, 0], read_outcome.closed]
        (send_outcome.sent 16) = some sample_overflow_acked
    ∧ ∃ (pre : List read_outcome) (last : read_outcome),
      [read_outcome.data [1, 2, 3, 4, 5, 6, 7, 8, 9, 0], read_outcome.closed]
        = pre ++ last :: sample_overflow_acked.unread
      ∧ ((∃ sd data, io_send sd data ∈ sample_overflow_acked.trace) ↔ 0 < read_return last)
      ∧ (0 < read_return last ↔
          (sample_overflow_acked.exit_at = some loop_exit.short_read
            ∨ sample_overflow_acked.exit_at = some loop_exit.trailing_null
            ∨ sample_overflow_acked.exit_at = some loop_exit.overflow))
      ∧ (0 < read_return last →
          io_send sample_receiver.csd (ack_text ++ sprintf_d sample_overflow_acked.message_size)
            ∈ sample_overflow_acked.trace)
      ∧ ((∀ c, read_outcome.data c
            ∈ [read_outcome.data [1, 2, 3, 4, 5, 6, 7, 8, 9, 0], read_outcome.closed] →
            c.length ≤ rd_buf_size) →
          sample_overflow_acked.exit_at = some loop_exit.overflow →
          sample_overflow_acked.message_size ≤ 0)
      ∧ (sample_overflow_acked.sock_struct.result = MSH_MESSAGE_RECV_TIMEOUT
          ∨ sample_overflow_acked.sock_struct.result = MSH_MESSAGE_NOT_RECVD
          ∨ sample_overflow_acked.sock_struct.result = MSH_CLIENT_DISCONNECTED →
            ∀ sd data, io_send sd data ∉ sample_overflow_acked.trace) :=
  ⟨by decide,
   recv_ack_iff_positive_read sample_receiver (List.replicate 5 255) 5 (other 0)
    [read_outcome.data [1, 2, 3, 4, 5, 6, 7, 8, 9, 0], read_outcome.closed]
    (send_outcome.sent 16) sample_overflow_acked
    (by decide) (by decide) (by decide) (by decide) (by decide) (by decide)⟩

/-- C14. Disruption detector `check_for_broken_socket`: it returns true exactly
when `errno` is `EPIPE`; then it closes the connected descriptor (`csd` becomes
0), sets `result` to `MSH_CLIENT_DISCONNECTED` and leaves `lsd`, `lto`, `cto`,
`port` and `host` unchanged; for every other `errno` it returns false, makes
no call and leaves every field of the session, `result` included, as it
was. -/
theorem check_for_broken_socket_effect (s : sock_struct_t) (errno : errno_t) :
    ((check_for_broken_socket s errno).1 = true ↔ errno = EPIPE)
    ∧ (errno = EPIPE →
        check_for_broken_socket s errno =
          (true, { s with csd := 0, result := MSH_CLIENT_DISCONNECTED }, [io_close s.csd]))
    ∧ (errno ≠ EPIPE → check_for_broken_socket s errno = (false, s, []))
    ∧ ((check_for_broken_socket s errno).2.1.lsd = s.lsd
        ∧ (check_for_broken_socket s errno).2.1.lto = s.lto
        ∧ (check_for_broken_socket s errno).2.1.cto = s.cto
        ∧ (check_for_broken_socket s errno).2.1.port = s.port
        ∧ (check_for_broken_socket s errno).2.1.host = s.host) := by
  unfold check_for_broken_socket sock_struct_close_client
  by_cases h : errno = EPIPE
  · simp [h]
  · simp [h]

/-- C15. Receive timeout: on a session that passes validation, for every script
of reads, `msg_sock_hdlr_recv` ends with `MSH_MESSAGE_RECV_TIMEOUT` if and only
if the read that ended the loop (`last`) failed with `EWOULDBLOCK` or `EAGAIN`
and `cto > 0`; in that case the calls made are the reads up to `last` and
nothing else (no further read, no ACK), whatever was copied before. -/
theorem recv_timeout_iff (s : sock_struct_t) (message_buf : List Nat) (message_buf_len : Int)
    (sendAck : Bool) (errno0 : errno_t) (reads : List read_outcome) (ack_send : send_outcome)
    (r : recv_result)
    (hlsd : s.lsd ≠ 0) (hcsd : s.csd ≠ 0) (hlto : 0 ≤ s.lto) (hcto : 0 ≤ s.cto)
    (hvalid : s.valid ≠ 0)
    (hr : msg_sock_hdlr_recv s message_buf message_buf_len sendAck errno0 reads ack_send
      = some r) :
    ∃ (pre : List read_outcome) (last : read_outcome),
      reads = pre ++ last :: r.unread
      ∧ (r.sock_struct.result = MSH_MESSAGE_RECV_TIMEOUT ↔
          ((last = read_outcome.failed EWOULDBLOCK ∨ last = read_outcome.failed EAGAIN)
            ∧ 0 < s.cto))
      ∧ (r.sock_struct.result = MSH_MESSAGE_RECV_TIMEOUT →
          r.trace = List.replicate (pre.length + 1) (io_read s.csd rd_buf_size)
          ∧ r.exit_at = some loop_exit.read_not_positive) := by
  have hv : ¬ (s.valid = 0 ∨ s.lsd = 0 ∨ s.csd = 0 ∨ s.lto < 0 ∨ s.cto < 0) := by
    simp only [not_or, not_lt]
    exact ⟨hvalid, hlsd, hcsd, hlto, hcto⟩
  obtain ⟨l, hl, hfin⟩ := recv_valid_some s message_buf message_buf_len sendAck errno0 reads
    ack_send r hv hr
  obtain ⟨hk1, hk2, hk3, hk4⟩ := recv_finish_keeps s sendAck ack_send l
  rw [hfin] at hk1 hk2 hk3 hk4
  obtain ⟨pre, last, hsplit, htr, hbr, herr, hstop, hov, hrc, hcode⟩ := recv_loop_last_read
    s.csd message_buf_len reads message_buf 0 _ errno0 [] l hl (by decide)
  have hcode1 : l.return_code ≠ MSH_MESSAGE_RECV_TIMEOUT := by
    rcases hcode with h | h | h <;> rw [h] <;> decide
  refine ⟨pre, last, by rw [hk3]; exact hsplit, ?_⟩
  by_cases hack : 0 < l.bytes_read ∧ sendAck = true
  · -- the ACK step is taken: the result is the return code of the loop or the ACK failure
    obtain ⟨hpos, hs⟩ := hack
    subst hs
    have hres : r.sock_struct.result ≠ MSH_MESSAGE_RECV_TIMEOUT := by
      cases ack_send with
      | sent count =>
        rw [recv_finish_ack_sent s count l hpos] at hfin
        subst hfin
        exact hcode1
      | failed e =>
        rw [recv_finish_ack_failed s e l hpos] at hfin
        subst hfin
        simp
    have hlast : ¬ (last = read_outcome.failed EWOULDBLOCK ∨ last = read_outcome.failed EAGAIN) := by
      intro h
      rw [hbr] at hpos
      rcases h with h | h <;> rw [h] at hpos <;> simp [read_return] at hpos
    exact ⟨⟨fun h => absurd h hres, fun h => absurd h.1 hlast⟩, fun h => absurd h hres⟩
  · have hno : ¬ 0 < l.bytes_read ∨ sendAck = false := by
      by_cases hp : 0 < l.bytes_read
      · right
        cases sendAck
        · rfl
        · exact absurd ⟨hp, rfl⟩ hack
      · exact Or.inl hp
    rw [recv_finish_no_ack s sendAck ack_send l hno] at hfin
    subst hfin
    simp only
    by_cases ht : l.bytes_read < 0 ∧ 0 < s.cto ∧ (l.errno = EWOULDBLOCK ∨ l.errno = EAGAIN)
    · obtain ⟨hneg, hct, he⟩ := ht
      rw [hbr] at hneg
      obtain ⟨x, hx⟩ := (read_return_neg last).mp hneg
      have hx1 := herr x hx
      have hb0 : ¬ l.bytes_read = 0 := by rw [hbr]; omega
      have hbn : l.bytes_read < 0 := by rw [hbr]; exact hneg
      have hst : l.exit_at = loop_exit.read_not_positive := hstop.mpr (by omega)
      simp only [hbn, hct, he, and_self, if_true, hb0, if_false, true_iff, forall_const,
        List.append_nil, htr, List.nil_append, hst, and_true]
      rw [hx, ← hx1]
      rcases he with h | h
      · exact Or.inl (by rw [h])
      · exact Or.inr (by rw [h])
    · rw [if_neg ht]
      have hres : (if l.bytes_read = 0 ∧ l.errno = EPIPE then MSH_CLIENT_DISCONNECTED
          else l.return_code) ≠ MSH_MESSAGE_RECV_TIMEOUT := by
        split_ifs
        · decide
        · exact hcode1
      refine ⟨⟨fun h => absurd h hres, ?_⟩, fun h => absurd h hres⟩
      rintro ⟨hl1, hct⟩
      exfalso
      apply ht
      rcases hl1 with h | h
      · have := herr _ h
        refine ⟨by rw [hbr, h]; simp [read_return], hct, Or.inl this⟩
      · have := herr _ h
        refine ⟨by rw [hbr, h]; simp [read_return], hct, Or.inr this⟩

/-- Witness of C15: the first read times out on a session with `cto = 2`. -/
theorem recv_timeout_iff_witness :
    msg_sock_hdlr_recv sample_receiver_timed (List.replicate 8 255) 8 true (other 0)
        [read_outcome.failed EAGAIN, read_outcome.closed] (send_outcome.sent 20)
      = some sample_timed_out
    ∧ ∃ (pre : List read_outcome) (last : read_outcome),
      [read_outcome.failed EAGAIN, read_outcome.closed] = pre ++ last :: sample_timed_out.unread
      ∧ (sample_timed_out.sock_struct.result = MSH_MESSAGE_RECV_TIMEOUT ↔
          ((last = read_outcome.failed EWOULDBLOCK ∨ last = read_outcome.failed EAGAIN)
            ∧ 0 < sample_receiver_timed.cto))
      ∧ (sample_timed_out.sock_struct.result = MSH_MESSAGE_RECV_TIMEOUT →
          sample_timed_out.trace
            = List.replicate (pre.length + 1) (io_read sample_receiver_timed.csd rd_buf_size)
          ∧ sample_timed_out.exit_at = some loop_exit.read_not_positive) :=
  ⟨by decide,
   recv_timeout_iff sample_receiver_timed (List.replicate 8 255) 8 true (other 0)
    [read_outcome.failed EAGAIN, read_outcome.closed] (send_outcome.sent 20) sample_timed_out
    (by decide) (by decide) (by decide) (by decide) (by decide) (by decide)⟩

/-- C16. The receiver never appends a terminator.  The capacity is a C `int`.
When it is at most `INT_MAX - 1023` and the reads return at most the 1024 bytes
asked for, so that the sizes the loop forms are the sizes of what it copied,
then whatever the session and the script, the destination `msg_sock_hdlr_recv`
leaves is the chunks it accepted, which are the first reads of the script, one
behind the other, followed by the bytes the buffer held before at those indices:
every byte written is a byte a read returned and the bytes from the accumulated
count on are unchanged.  And for every capacity, when the last accepted chunk is
a short read that does not end in a null byte, the result is
`MSH_MESSAGE_RECVD` and the byte at index `message_size`, for which room was
reserved, is the byte the buffer held before. -/
theorem recv_appends_no_terminator (s : sock_struct_t) (message_buf : List Nat)
    (message_buf_len : Int) (sendAck : Bool) (errno0 : errno_t) (reads : List read_outcome)
    (ack_send : send_outcome) (r : recv_result)
    (hbuf : message_buf_len ≤ message_buf.length)
    (hint : message_buf_len ≤ 2147483647)
    (hr : msg_sock_hdlr_recv s message_buf message_buf_len sendAck errno0 reads ack_send
      = some r) :
    (message_buf_len ≤ 2147482624 →
      (∀ c, read_outcome.data c ∈ reads → c.length ≤ rd_buf_size) →
      ∃ chunks : List (List Nat),
        reads.take chunks.length = chunks.map read_outcome.data
        ∧ r.message_buf = chunks.flatten ++ message_buf.drop chunks.flatten.length
        ∧ r.message_size.natAbs = chunks.flatten.length)
    ∧ (∀ (pre : List (List Nat)) (c : List Nat) (rest : List read_outcome),
        s.lsd ≠ 0 → s.csd ≠ 0 → 0 ≤ s.lto → 0 ≤ s.cto → s.valid ≠ 0 → sendAck = false →
        reads = pre.map read_outcome.data ++ read_outcome.data c :: rest →
        (∀ d ∈ pre, d.length = rd_buf_size ∧ d.getD (rd_buf_size - 1) 0 ≠ 0) →
        c ≠ [] → c.length < rd_buf_size → c.getD (c.length - 1) 0 ≠ 0 →
        (rd_buf_size : Int) * pre.length + c.length + 1 ≤ message_buf_len →
        r.sock_struct.result = MSH_MESSAGE_RECVD
        ∧ r.message_size = ((pre ++ [c]).flatten.length : Int)
        ∧ ((pre ++ [c]).flatten.length : Int) < message_buf_len
        ∧ ∀ d, r.message_buf.getD (pre ++ [c]).flatten.length d
            = message_buf.getD (pre ++ [c]).flatten.length d) := by
  constructor
  · intro hmax hread
    obtain ⟨chunks, htake, _, hmb, hms⟩ := recv_accepted_chunks s message_buf message_buf_len
      sendAck errno0 reads ack_send r hbuf hmax hread hr
    refine ⟨chunks, htake, hmb, ?_⟩
    rw [hms]
    split_ifs
    · rw [Int.natAbs_neg, Int.natAbs_ofNat]
    · rw [Int.natAbs_ofNat]
  · intro pre c rest hlsd hcsd hlto hcto hvalid hs hreads hpre hc hshort hlast hfit
    subst hs
    subst hreads
    have key := recv_chunks_accepted s message_buf message_buf_len errno0 pre c rest ack_send
      hlsd hcsd hlto hcto hvalid hbuf hint hpre hc (Or.inl hshort)
      (by rw [if_neg hlast]; exact hfit)
    rw [key] at hr
    cases hr
    have hflat := full_chunks_length pre hpre
    have htot : (pre ++ [c]).flatten.length = rd_buf_size * pre.length + c.length := by
      simp [hflat]
    refine ⟨rfl, rfl, ?_, ?_⟩
    · rw [htot]
      push_cast
      omega
    · intro d
      simp only
      rw [List.getD_eq_getElem?_getD, List.getD_eq_getElem?_getD,
        List.getElem?_append_right (le_refl _), List.getElem?_drop]
      simp

/-- Witness of C16: "hi" arrives without terminator; the destination is the
chunk followed by the old bytes, and the byte behind the chunk stays 255. -/
theorem recv_appends_no_terminator_witness :
    msg_sock_hdlr_recv sample_receiver (List.replicate 8 255) 8 false (other 0)
        [read_outcome.data [104, 105]] (send_outcome.sent 0) = some sample_hi_unterminated
    ∧ (∃ chunks : List (List Nat),
        [read_outcome.data [104, 105]].take chunks.length = chunks.map read_outcome.data
        ∧ sample_hi_unterminated.message_buf
            = chunks.flatten ++ (List.replicate 8 255).drop chunks.flatten.length
        ∧ sample_hi_unterminated.message_size.natAbs = chunks.flatten.length)
    ∧ sample_hi_unterminated.sock_struct.result = MSH_MESSAGE_RECVD
    ∧ sample_hi_unterminated.message_size = (([] ++ [[104, 105]]).flatten.length : Int)
    ∧ ((([] : List (List Nat)) ++ [[104, 105]]).flatten.length : Int) < 8
    ∧ ∀ d, sample_hi_unterminated.message_buf.getD ([] ++ [[104, 105]]).flatten.length d
        = (List.replicate 8 255).getD ([] ++ [[104, 105]]).flatten.length d :=
  have key := recv_appends_no_terminator sample_receiver (List.replicate 8 255) 8 false
    (other 0) [read_outcome.data [104, 105]] (send_outcome.sent 0) sample_hi_unterminated
    (by decide) (by decide) (by decide)
  ⟨by decide,
   key.1 (by decide) (by
    intro c hc
    simp only [List.mem_singleton, read_outcome.data.injEq] at hc
    subst hc
    decide),
   key.2 [] [104, 105] []
    (by decide) (by decide) (by decide) (by decide) (by decide) rfl rfl
    (by simp) (by decide) (by decide) (by decide) (by decide)⟩

/-- C17. The 32-byte ACK buffer suffices: for every value of `message_size` in
the range of a 32-bit signed `int`, the text `:ACK:ByteCount:` followed by its
decimal rendering and the null byte `sprintf` adds takes at most
`ACK_MSG_BUF_LEN` bytes, so `ack_response` keeps its 32 bytes and `strlen`
finds the end of the text inside it. -/
theorem ack_buffer_suffices (message_size : Int) (hlo : -2147483648 ≤ message_size)
    (hhi : message_size ≤ 2147483647) :
    (ack_text ++ sprintf_d message_size ++ [0]).length ≤ ACK_MSG_BUF_LEN
    ∧ (ack_response message_size).length = ACK_MSG_BUF_LEN
    ∧ strlen (ack_response message_size) < ACK_MSG_BUF_LEN := by
  have hd := sprintf_d_length message_size hlo hhi
  have htext : (ack_text ++ sprintf_d message_size ++ [0]).length ≤ ACK_MSG_BUF_LEN := by
    simp only [List.length_append, List.length_singleton, ack_text, List.length_cons,
      List.length_nil, ACK_MSG_BUF_LEN]
    omega
  refine ⟨htext, ?_, ?_⟩
  · rw [ack_response, memcpy_length _ _ _ (by simpa using htext)]
    simp
  · have htake := congrArg List.length (ack_response_take message_size)
    have hle : strlen (ack_response message_size) ≤ (ack_response message_size).length := by
      unfold strlen
      exact (List.takeWhile_sublist _).length_le
    rw [List.length_take, min_eq_left hle] at htake
    rw [htake]
    simp only [List.length_append, List.length_singleton] at htext ⊢
    omega

/-- Witness of C17: the longest text, for `INT_MIN`. -/
theorem ack_buffer_suffices_witness :
    (ack_text ++ sprintf_d (-2147483648) ++ [0]).length ≤ ACK_MSG_BUF_LEN
    ∧ (ack_response (-2147483648)).length = ACK_MSG_BUF_LEN
    ∧ strlen (ack_response (-2147483648)) < ACK_MSG_BUF_LEN :=
  ack_buffer_suffices (-2147483648) (by decide) (by decide)

end MsgSockHdlr
